import Mathlib

/-!
# np1sec: session, participant and user state

A shallow embedding of `src/participant.{h,cc}`, `src/session.cc` and
`src/userstate.cc`, followed by theorems about it.

Conventions of the embedding.

* `std::string` is `String`; `uint32_t` values that are only stored and
  compared are `Nat`.
* `std::map<K, V>` is `StdMap K V`: the list of its entries in iteration
  order.  `operator[]` inserts a value-initialised entry when the key is
  missing, as in C++.
* Pointers that may be `NULL` are `Option`s.
* A call whose C++ behaviour is undefined (`rbegin()` of an empty map, a
  write through an uninitialised pointer, `v[0]` on an empty vector, an
  iterator used after its entry was erased or past the end of its container),
  that throws (`std::string x = NULL;`) or that aborts (`assert`) makes the
  embedded function return `none`.
* Functions that are declared but not defined in these files (hashing,
  key serialisation, message parsing) are fields of `Primitives`; members of
  the session that are used but not defined (`group_enc`, `group_dec`,
  `validate_session_confirmation`) are fields of `SessionPrimitives`.
* A handler returns the session afterwards next to its C++ result; the
  messages on which it calls `send()` and a call of `activate()` are part of
  what it returns.
* Event-loop calls (`event_add`, `event_free`, `event_base_dispatch`) change
  no field of the session and are left out; the timer maps themselves are
  modelled.
* A constructor of `np1secSession` takes the object before its body runs as
  the parameter `s0`: the class declaration, with its member initialisers, is
  in `session.h`.  The member `in_session_index` of a participant, which no
  constructor initialises, is 0 in `Participant.new`; where its value is the
  subject, `Participant.uninitialised` takes it as a parameter.
-/

namespace np1sec

/-! ## Data model -/

/-- The type `HashBlock` of common.h: a block of `c_hash_length` bytes, kept
here as the character buffer that `Cryptic::hash_to_string_buff` returns. -/
structure HashBlock where
  buff : String
  deriving DecidableEq, Repr

/-- The `std::string` built from the bytes of a block (crypt.h,
`hash_to_string_buff`, and the `reinterpret_cast` in participant.cc). -/
def hash_to_string_buff (hash_block : HashBlock) : String := hash_block.buff

/-- The all-zero block, as in `HashBlock p2p_key = {}`. -/
def HashBlock.zero : HashBlock := ⟨String.mk (List.replicate 32 (Char.ofNat 0))⟩

/-- The type `gcry_sexp_t`: a pointer to an s-expression, `none` for `NULL`. -/
abbrev gcry_sexp_t := Option String

abbrev np1secAsymmetricKey := gcry_sexp_t
abbrev np1secPublicKey := gcry_sexp_t
abbrev np1secKeyShare := HashBlock

/-- Strict order on map keys, the `std::less` of the key type. -/
class StdLess (K : Type) where
  less : K → K → Bool

/-- Comparison of `std::string`s: lexicographic on the characters. -/
def string_less (a b : String) : Bool := decide (a.toList < b.toList)

instance : StdLess String := ⟨string_less⟩
instance : StdLess Nat := ⟨fun a b => decide (a < b)⟩

/-- A `std::map`: its entries in iteration (key) order. -/
abbrev StdMap (K V : Type) := List (K × V)

namespace StdMap

variable {K V : Type} [DecidableEq K]

/-- The member `find`: the mapped value, `none` for `end()`. -/
def find? (m : StdMap K V) (k : K) : Option V :=
  match m with
  | [] => none
  | (k', v) :: rest => if k' = k then some v else find? rest k

/-- Assignment `m[k] = v`: overwrites the entry of `k` or inserts it in key order. -/
def assign [StdLess K] (m : StdMap K V) (k : K) (v : V) : StdMap K V :=
  match m with
  | [] => [(k, v)]
  | (k', v') :: rest =>
    if StdLess.less k k' then (k, v) :: (k', v') :: rest
    else if k' = k then (k, v) :: rest
    else (k', v') :: assign rest k v

/-- Reading `m[k]`: the mapped value, after inserting a value-initialised
entry when `k` is missing. -/
def index [StdLess K] [Inhabited V] (m : StdMap K V) (k : K) : V × StdMap K V :=
  match find? m k with
  | some v => (v, m)
  | none => (default, assign m k default)

/-- The member `insert`: adds the entry unless the key is already present. -/
def insert [StdLess K] (m : StdMap K V) (k : K) (v : V) : StdMap K V :=
  match find? m k with
  | some _ => m
  | none => assign m k v

/-- The member `erase(key)`. -/
def erase (m : StdMap K V) (k : K) : StdMap K V :=
  m.filter (fun e => decide (e.1 ≠ k))

/-- The entry `*rbegin()`: the one with the greatest key; `none` on an empty map. -/
def rbegin (m : StdMap K V) : Option (K × V) := m.getLast?

/-- The keys, in iteration order. -/
def keys (m : StdMap K V) : List K := m.map Prod.fst

end StdMap

/-- The enum `Participant::ForwardSecracyContribution`. -/
inductive ForwardSecracyContribution where
  | NONE
  | EPHEMERAL
  | KEY_SHARE
  deriving DecidableEq, Repr

/-- The class `Participant` of participant.h. -/
structure Participant where
  id : String
  nickname : String
  long_term_pub_key : np1secPublicKey
  ephemeral_key : np1secPublicKey
  raw_ephemeral_key : Option HashBlock
  cur_keyshare : Option np1secKeyShare
  p2p_key : HashBlock
  authenticated : Bool
  authed_to : Bool
  in_session_index : Nat
  ForwardSecracyStatus : ForwardSecracyContribution
  deriving DecidableEq, Repr

/-- The constructor `Participant(std::string participant_id = "")`.  Its
initialiser list does not name `in_session_index`; the member is 0 here, and
`Participant.uninitialised` gives it any other value. -/
def Participant.new (participant_id : String) : Participant :=
  { id := participant_id
    nickname := ""
    long_term_pub_key := none
    ephemeral_key := none
    raw_ephemeral_key := none
    cur_keyshare := none
    p2p_key := HashBlock.zero
    authenticated := false
    authed_to := false
    in_session_index := 0
    ForwardSecracyStatus := ForwardSecracyContribution.NONE }

instance : Inhabited Participant := ⟨Participant.new ""⟩

abbrev ParticipantMap := StdMap String Participant

/-- The states of a session named in session.cc. -/
inductive np1secSessionState where
  | NONE
  | JOIN_REQUESTED
  | REPLIED_TO_NEW_JOIN
  | RE_SHARED
  | GROUP_KEY_GENERATED
  | IN_SESSION
  | UPDATED_KEY
  | LEAVE_REQUESTED
  | FAREWELLED
  | DEAD
  deriving DecidableEq, Repr

/-- The message types named in session.cc and userstate.cc. -/
inductive np1secMessageType where
  | USER_MESSAGE
  | PURE_META_MESSAGE
  | SESSION_P_LIST
  | JOIN_REQUEST
  | PARTICIPANT_INFO
  | JOINER_AUTH
  | RE_SHARE
  | SESSION_CONFIRMATION
  | FAREWELL
  deriving DecidableEq, Repr

/-- The callbacks that session.cc hands to `event_new`. -/
inductive TimerCallback where
  | cb_send_heartbeat
  | cb_ack_not_received
  | cb_send_ack
  deriving DecidableEq, Repr

/-- A libevent `struct event`, as far as session.cc fixes it: its callback. -/
structure event where
  callback : TimerCallback
  deriving DecidableEq, Repr

/-- The struct `UnauthenticatedParticipant` of interface.h. -/
structure UnauthenticatedParticipant where
  participant_id : String
  ephemeral_pub_key : HashBlock
  deriving DecidableEq, Repr

/-- The fields of an `np1secMessage` that session.cc and userstate.cc read.
The handlers read the type as `type` and as `message_type`; it is the one
field `message_type`.  The auth token is `kc`, the key share `z_share`. -/
structure np1secMessage where
  sid : HashBlock
  sender_id : String
  user_message : String
  message_type : np1secMessageType
  message_id : Nat
  transcript_chain_hash : HashBlock
  kc : HashBlock := ⟨""⟩
  z_share : np1secKeyShare := ⟨""⟩
  participants_in_the_room : List UnauthenticatedParticipant := []
  joiner_participant : UnauthenticatedParticipant := ⟨"", ⟨""⟩⟩
  deriving DecidableEq, Repr

/-- The class `Cryptic` of crypt.h: the ephemeral key material of a session. -/
structure Cryptic where
  ephemeral_key : gcry_sexp_t
  ephemeral_pub_key : gcry_sexp_t
  ephemeral_prv_key : gcry_sexp_t
  deriving DecidableEq, Repr

/-- Functions that the sources call and that are declared elsewhere. -/
structure Primitives where
  /-- The static `Cryptic::hash`. -/
  hash : String → HashBlock
  /-- The member `compute_session_hash` (session.h). -/
  compute_session_hash : String → HashBlock
  /-- The member `compute_message_hash` (session.h). -/
  compute_message_hash : String → HashBlock
  /-- The static `Cryptic::retrieve_result`: the bytes of an s-expression. -/
  retrieve_result : gcry_sexp_t → String
  /-- The static `Cryptic::public_key_to_stringbuff`. -/
  public_key_to_stringbuff : np1secPublicKey → String
  /-- The public half of a wrapped key pair (`AsymmetricKeyPair::public_key`). -/
  public_key_of : np1secAsymmetricKey → np1secPublicKey
  /-- The member `Cryptic::triple_ed_dh`; `none` when it throws. -/
  triple_ed_dh : Cryptic → np1secPublicKey → np1secPublicKey → np1secAsymmetricKey →
    Bool → Option HashBlock
  /-- The text that `ss << block; ss >> text` leaves in `text` for an element
  of `transcript_chain` (the element type is declared in session.h). -/
  stream_block : HashBlock → String
  /-- The parsing constructor `np1secMessage(raw_message, cryptic)`. -/
  parse_message : String → Cryptic → np1secMessage
  /-- The member `id_to_stringbuffer()` of a participant's id. -/
  id_to_stringbuffer : String → String
  /-- The `sizeof(uint32_t)` bytes of an index, as `auth_batch.append` copies them. -/
  uint32_bytes : Nat → String
  /-- The static `Cryptic::convert_to_sexp`; `none` for `NULL`. -/
  convert_to_sexp : String → gcry_sexp_t
  /-- The member `Cryptic::init`: the key material it generates, `none` when it
  returns false. -/
  cryptic_init : Cryptic → Option Cryptic
  /-- The static `Cryptic::generate_key_pair`: the flag it returns and the key
  it writes; `none` when it throws. -/
  generate_key_pair : Option (Bool × np1secAsymmetricKey)

/-- One call of the transport callback `send_bare(room, sender, message, data)`. -/
structure BareMessage where
  room_name : String
  sender_nickname : String
  message : String
  deriving DecidableEq, Repr

/-- The fields of `np1secSession` used by the functions embedded below.
The vector `confirmed_peers` holds one confirmation bit per index; `my_parent`
holds the session id of the parent in place of the pointer.  The map
`my_children` is kept beside the session, see `SessionWithChildren`. -/
structure np1secSession where
  room_name : String
  myself : Participant
  cryptic : Cryptic
  my_state : np1secSessionState
  participants : ParticipantMap
  peers : List String
  session_id : HashBlock
  session_id_is_set : Bool
  transcript_chain : StdMap Nat HashBlock
  awaiting_ack : StdMap String (Option event)
  acks_to_send : StdMap String (Option event)
  confirmed_peers : List Bool := []
  session_key_share : Option np1secKeyShare := none
  my_parent : Option HashBlock := none
  participants_in_the_room : List UnauthenticatedParticipant := []
  deriving DecidableEq, Repr

/-! ## session.cc -/

/-- The loop of `compute_session_id`: for each peer, `participants[*it]` is
read (inserting a default participant for an unknown name) and its id and
ephemeral key bytes are appended to `cat_string`. -/
def compute_session_id_loop (P : Primitives) :
    List String → ParticipantMap → String → ParticipantMap × String
  | [], participants, cat_string => (participants, cat_string)
  | it :: rest, participants, cat_string =>
    let r := StdMap.index participants it
    let p := r.1
    compute_session_id_loop P rest r.2
      (cat_string ++ p.id ++ P.retrieve_result p.ephemeral_key)

/-- The member `np1secSession::compute_session_id`.  The assertion and the
final assignment name the flag `session_id_set` and `session_id_is_set`; they
are the one flag of the session.  The result is `none` when the assertion
fails. -/
def compute_session_id (P : Primitives) (s : np1secSession) :
    Option (np1secSession × Bool) :=
  if s.session_id_is_set then none
  else if s.peers.length = 0 then some (s, false)
  else
    let r := compute_session_id_loop P s.peers s.participants ""
    some ({ s with participants := r.1
                   session_id := P.compute_session_hash r.2
                   session_id_is_set := true }, true)

/-- The value of a pointer that is declared without an initialiser, as
`HashBlock* hb;`: there is no object that it points to. -/
def uninitialised_pointer (α : Type) : Option α := none

/-- The construction `std::string meta_load = NULL;`: a `std::string` cannot
be constructed from a null pointer (the constructor throws
`std::logic_error`), so there is no string. -/
def string_from_null : Option String := none

/-- The member `np1secSession::add_message_to_transcript`: the last element of
the chain is streamed into `pointlessconversion` and `":O3" + message` is
appended.  The hash is then written with `compute_message_hash(*hb, ...)`
through the pointer `hb`, which is declared without an initialiser: the
write is undefined for every input, and the statement that would store `hb`
at `message_id` is not reached with a defined value. -/
def add_message_to_transcript (P : Primitives) (s : np1secSession)
    (message : String) (message_id : Nat) : Option np1secSession :=
  match StdMap.rbegin s.transcript_chain with
  | none => none
  | some last =>
    let pointlessconversion := P.stream_block last.2 ++ (":O3" ++ message)
    match uninitialised_pointer HashBlock with
    | none => none
    | some _hb =>
      let hb := P.compute_message_hash pointlessconversion
      some { s with transcript_chain := StdMap.assign s.transcript_chain message_id hb }

/-- The member `np1secSession::start_ack_timers`: one new event with the
callback `cb_ack_not_received` is stored in `awaiting_ack` for each peer. -/
def start_ack_timers (s : np1secSession) : np1secSession :=
  let timers := s.peers.foldl
    (fun m it => StdMap.assign m it (some ⟨TimerCallback.cb_ack_not_received⟩))
    s.awaiting_ack
  { s with awaiting_ack := timers }

/-- The member `np1secSession::start_receive_ack_timer`: the new event is
stored in `acks_to_send[sender_id]`; the argument of `event_add` is
`awaiting_ack[sender_id]`, a read of `awaiting_ack` with `operator[]`. -/
def start_receive_ack_timer (s : np1secSession) (sender_id : String) : np1secSession :=
  let timer_event : Option event := some ⟨TimerCallback.cb_send_ack⟩
  let acks := StdMap.assign s.acks_to_send sender_id timer_event
  let r := StdMap.index s.awaiting_ack sender_id
  { s with acks_to_send := acks, awaiting_ack := r.2 }

/-- The member `np1secSession::stop_timer_send`.  The body of the loop erases
the entry under the iterator `it`, and the loop then increments that
iterator: undefined as soon as the map has an entry.  On an empty map the
body does not run. -/
def stop_timer_send (s : np1secSession) : Option np1secSession :=
  match s.acks_to_send with
  | [] => some s
  | _ :: _ => none

/-- The member `np1secSession::stop_timer_receive`: `awaiting_ack[id]` is read
for `event_free`, then the entry is erased. -/
def stop_timer_receive (s : np1secSession) (acknowledger_id : String) : np1secSession :=
  let r := StdMap.index s.awaiting_ack acknowledger_id
  { s with awaiting_ack := StdMap.erase r.2 acknowledger_id }

/-- The enum `np1secLoadFlag`, as far as `send` names it. -/
inductive np1secLoadFlag where
  | NO_LOAD
  deriving DecidableEq, Repr

/-- The arguments from which `send` constructs its local `outbound`. -/
structure OutboundMessage where
  session_id : HashBlock
  sender_id : String
  user_message : String
  message_type : np1secMessageType
  transcript_chain_hash : HashBlock
  meta_load_flag : np1secLoadFlag
  meta_load : Option String
  peers : List String
  cryptic : Cryptic
  deriving DecidableEq, Repr

/-- The local `outbound` of `np1secSession::send`, built from the session id,
`us->user_id()`, the message, its type, the last block of the chain and
`meta_load`; `none` when the chain is empty (`rbegin()` of an empty map) and
at `std::string meta_load = NULL;`. -/
def send_outbound (user_id : String) (s : np1secSession) (message : String)
    (message_type : np1secMessageType) : Option OutboundMessage :=
  match StdMap.rbegin s.transcript_chain with
  | none => none
  | some last =>
    match string_from_null with
    | none => none
    | some meta_load =>
      some { session_id := s.session_id
             sender_id := user_id
             user_message := message
             message_type := message_type
             transcript_chain_hash := last.2
             meta_load_flag := np1secLoadFlag.NO_LOAD
             meta_load := some meta_load
             peers := s.peers
             cryptic := s.cryptic }

/-- The member `np1secSession::send`.  The result holds the session afterwards,
the calls made to `us->ops->send_bare`, and the returned flag.  The statement
`std::string meta_load = NULL;` stands before the construction of `outbound`
and before every timer call, so no call of `send` gets past it.  The only
call of `send_bare` in the body is commented out
(`// us->ops->send_bare(room_name, outbound);`). -/
def send (user_id : String) (s : np1secSession) (message : String)
    (message_type : np1secMessageType) :
    Option (np1secSession × List BareMessage × Bool) :=
  match send_outbound user_id s message message_type with
  | none => none
  | some _ =>
    match stop_timer_send s with
    | none => none
    | some s1 =>
      let s2 :=
        if message_type = np1secMessageType.USER_MESSAGE then start_ack_timers s1 else s1
      some (s2, [], true)

/-- The member `np1secSession::receive`: the session afterwards and the
message that is returned.  The branch for a differing chain hash is empty, and
so is the one for `SESSION_P_LIST`. -/
def receive (P : Primitives) (s : np1secSession) (raw_message : String) :
    Option (np1secSession × np1secMessage) :=
  match StdMap.rbegin s.transcript_chain with
  | none => none
  | some last =>
    let received_message := P.parse_message raw_message s.cryptic
    if last.2 = received_message.transcript_chain_hash then
      match add_message_to_transcript P s received_message.user_message
          received_message.message_id with
      | none => none
      | some s1 =>
        let s2 := stop_timer_receive s1 received_message.sender_id
        let s3 := start_receive_ack_timer s2 received_message.sender_id
        some (s3, received_message)
    else
      some (s, received_message)

/-- Appending a sequence of (plaintext, message id) pairs to the transcript,
one call of `add_message_to_transcript` after the other. -/
def add_messages_to_transcript (P : Primitives) :
    np1secSession → List (String × Nat) → Option np1secSession
  | s, [] => some s
  | s, m :: rest =>
    match add_message_to_transcript P s m.1 m.2 with
    | none => none
    | some s1 => add_messages_to_transcript P s1 rest

/-! ## participant.cc -/

/-- The function `sort_by_long_term_pub_key`. -/
def sort_by_long_term_pub_key (P : Primitives) (lhs rhs : np1secPublicKey) : Bool :=
  string_less (P.public_key_to_stringbuff lhs) (P.public_key_to_stringbuff rhs)

/-- The function `operator<(const Participant&, const Participant&)`.  The
expression `lhs.id.nickname` names the nickname of the participant (`id` is a
string and has no member).  When the nickname of `lhs` is not the smaller
one, the result is that of `sort_by_long_term_pub_key` on the two long-term
public keys, whether or not the nicknames are equal. -/
def operator_lt (P : Primitives) (lhs rhs : Participant) : Bool :=
  if string_less lhs.nickname rhs.nickname then true
  else sort_by_long_term_pub_key P lhs.long_term_pub_key rhs.long_term_pub_key

/-- The member `Participant::compute_p2p_private`; `none` when `triple_ed_dh`
throws. -/
def compute_p2p_private (P : Primitives) (p : Participant)
    (thread_user_id_key : np1secAsymmetricKey) (thread_user_crypto : Cryptic) :
    Option Participant :=
  match P.triple_ed_dh thread_user_crypto p.ephemeral_key p.long_term_pub_key
      thread_user_id_key
      (sort_by_long_term_pub_key P p.long_term_pub_key (P.public_key_of thread_user_id_key)) with
  | none => none
  | some teddh_token => some { p with p2p_key := teddh_token }

/-- The static `Cryptic::compare_hash`: whether `memcmp` of the two blocks is
non-zero. -/
def compare_hash (rhs lhs : HashBlock) : Bool := decide (rhs ≠ lhs)

/-- The exceptions that `be_authenticated` lets escape, and the one that
`state_handler` throws. -/
inductive np1secException where
  | np1secAuthenticationException
  | np1secCryptoException
  | np1secSessionStateException
  deriving DecidableEq, Repr

/-- The member `Participant::be_authenticated`: the participant afterwards and
whether the call returned or threw. -/
def be_authenticated (P : Primitives) (p : Participant) (authenticator_id : String)
    (auth_token : HashBlock) (thread_user_id_key : np1secAsymmetricKey)
    (thread_user_crypto : Cryptic) : Participant × Except np1secException Unit :=
  match compute_p2p_private P p thread_user_id_key thread_user_crypto with
  | none => (p, Except.error np1secException.np1secCryptoException)
  | some p1 =>
    let to_be_hashed := hash_to_string_buff p1.p2p_key ++ authenticator_id
    let regenerated_auth_token := P.hash to_be_hashed
    if compare_hash regenerated_auth_token auth_token then
      (p1, Except.error np1secException.np1secAuthenticationException)
    else
      ({ p1 with authenticated := true }, Except.ok ())

/-- The member `Participant::authenticate_to`: the participant afterwards and
the token written to `auth_token`; `none` when `triple_ed_dh` throws.  The
string hashed after the bytes of `p2p_key` is `id.id_to_stringbuffer()`, with
`id` the member of the participant on which the method is called.  No other
member is written. -/
def authenticate_to (P : Primitives) (p : Participant)
    (thread_user_id_key : np1secAsymmetricKey) (thread_user_crypto : Cryptic) :
    Option (Participant × HashBlock) :=
  match compute_p2p_private P p thread_user_id_key thread_user_crypto with
  | none => none
  | some p1 =>
    let to_be_hashed := hash_to_string_buff p1.p2p_key ++ P.id_to_stringbuffer p1.id
    some (p1, P.hash to_be_hashed)

/-- The call `authenticate(my_id, kc)` of session.cc on a participant:
`be_authenticated` with the key and the crypto of the thread user, `true` when
it returns and `false` when it throws (its doc comment promises
`@return true if peer's authenticity could be established`). -/
def authenticate (P : Primitives) (p : Participant) (my_id : String) (kc : HashBlock)
    (thread_user_id_key : np1secAsymmetricKey) (thread_user_crypto : Cryptic) :
    Participant × Bool :=
  let r := be_authenticated P p my_id kc thread_user_id_key thread_user_crypto
  match r.2 with
  | Except.ok _ => (r.1, true)
  | Except.error _ => (r.1, false)

/-- The call `set_key_share(z_share)` of session.cc on a participant. -/
def set_key_share (p : Participant) (z_share : np1secKeyShare) : Participant :=
  { p with cur_keyshare := some z_share }

/-! ## userstate.cc -/

/-- The class `LongTermIDKey` of crypt.h. -/
structure LongTermIDKey where
  key_pair : gcry_sexp_t × gcry_sexp_t
  initiated : Bool
  deriving DecidableEq, Repr

/-- The class `np1secUserState`; `sent_bare` records the calls made to
`ops->send_bare`, oldest first. -/
structure np1secUserState where
  name : String
  long_term_key_pair : LongTermIDKey
  session_in_a_room : StdMap String np1secSession
  sent_bare : List BareMessage
  deriving DecidableEq, Repr

/-- The value `RoomAction`, built in `receive_handler` as
`{ NULL, received_message.user_message }`. -/
structure RoomAction where
  first : Option Unit
  user_message : String
  deriving DecidableEq, Repr

/-- The member `np1secUserState::retrieve_session`. -/
def retrieve_session (us : np1secUserState) (room_name : String) : Option np1secSession :=
  StdMap.find? us.session_in_a_room room_name

/-- The member `np1secUserState::send_handler`; `none` when the room has no
session (`assert(false)`). -/
def send_handler (us : np1secUserState) (room_name : String) (plain_message : String) :
    Option (np1secUserState × Bool) :=
  match retrieve_session us room_name with
  | none => none
  | some cur_session =>
    match send us.name cur_session plain_message np1secMessageType.USER_MESSAGE with
    | none => none
    | some r =>
      some ({ us with
                session_in_a_room := StdMap.assign us.session_in_a_room room_name r.1
                sent_bare := us.sent_bare ++ r.2.1 }, r.2.2)

/-- The member `np1secUserState::receive_handler` for a room that has a
session: the message goes to `cur_session->receive` and the returned user
message is put into the `RoomAction`.  Without a session the branch
`if (!cur_session)` looks at the prefixes JOIN, LEAVE and SEND and holds no
`return`, so control goes on to the final `cur_session->receive`, which
dereferences the null pointer: no `RoomAction` is returned.  The opening statement
`np1secMessage recieved = receive(received_message);` reads a variable that
is declared only at the end and its result is never used; it is left out. -/
def receive_handler (P : Primitives) (us : np1secUserState) (room_name : String)
    (np1sec_message : String) (_message_id : Nat) : Option (np1secUserState × RoomAction) :=
  match retrieve_session us room_name with
  | none => none
  | some cur_session =>
    match receive P cur_session np1sec_message with
    | none => none
    | some r =>
      some ({ us with session_in_a_room := StdMap.assign us.session_in_a_room room_name r.1 },
            { first := none, user_message := r.2.user_message })

/-! ## session.cc: the transition handlers -/

instance : StdLess HashBlock := ⟨fun a b => string_less a.buff b.buff⟩

/-- Members of the session that session.cc uses and that are declared
elsewhere. -/
structure SessionPrimitives where
  /-- The long-term key pair of the thread user, reached through `us`. -/
  thread_user_id_key : np1secAsymmetricKey
  /-- The member `group_enc()`: the share it computes, `none` when it fails. -/
  group_enc : np1secSession → Option np1secKeyShare
  /-- The member `group_dec()`. -/
  group_dec : np1secSession → Bool
  /-- The member `validate_session_confirmation()`; it is called without
  arguments. -/
  validate_session_confirmation : np1secSession → Bool
  /-- The member `session_confirmation()`. -/
  session_confirmation : np1secSession → String
  /-- The member `unauthenticated_participants`. -/
  unauthenticated_participants : np1secSession → String

/-- A message on which a handler calls `send()`: the arguments it was built
from, `none` for an argument that is not passed. -/
structure SentMessage where
  message_type : np1secMessageType
  sid : HashBlock
  unauthenticated_participants : Option String
  auth : Option String
  key_share : Option np1secKeyShare
  confirmation : Option String
  deriving DecidableEq, Repr

/-- What a handler leaves: the session afterwards, the messages sent, whether
`activate()` was called, and the returned state. -/
structure HandlerResult where
  session : np1secSession
  sent : List SentMessage
  activated : Bool
  state : np1secSessionState
  deriving DecidableEq, Repr

/-- A session with its map `my_children` from session id to child session.
The map is a member of `np1secSession`; it is kept beside the session because
a structure cannot contain itself. -/
structure SessionWithChildren where
  session : np1secSession
  my_children : StdMap HashBlock np1secSession
  deriving DecidableEq, Repr

/-- What a handler that may attach a child leaves: the session and its
children afterwards, and the returned state. -/
structure ChildHandlerResult where
  session : np1secSession
  my_children : StdMap HashBlock np1secSession
  state : np1secSessionState
  deriving DecidableEq, Repr

/-- The member `set_ephmeral_key` of participant.h. -/
def set_ephmeral_key (P : Primitives) (p : Participant) (raw_ephemeral_key : HashBlock) :
    Participant × Bool :=
  let ephemeral_key := P.convert_to_sexp (hash_to_string_buff raw_ephemeral_key)
  ({ p with raw_ephemeral_key := some raw_ephemeral_key, ephemeral_key := ephemeral_key },
    ephemeral_key.isSome)

/-- The body of the loop of `setup_session_view` for one entry of the list:
the participant is inserted and its ephemeral key set; `none` when
`MessageFormatException` is thrown. -/
def setup_session_view_step (P : Primitives) (participants : Option ParticipantMap)
    (it : UnauthenticatedParticipant) : Option ParticipantMap :=
  match participants with
  | none => none
  | some m =>
    let m1 := StdMap.insert m it.participant_id (Participant.new it.participant_id)
    let r := StdMap.index m1 it.participant_id
    let k := set_ephmeral_key P r.1 it.ephemeral_pub_key
    if k.2 then some (StdMap.assign r.2 it.participant_id k.1) else none

/-- The member `np1secSession::setup_session_view`.  The loop runs from
`plist.begin()` while `it != plist.begin()`, that is over no entry of the
list.  The assertion `assert(!session_id)` is the one that the id is not set
yet.  The function has no `return`; its value is that of its last call,
`compute_session_id()`. -/
def setup_session_view (P : Primitives) (s : np1secSession)
    (session_view_message : np1secMessage) : Option (np1secSession × Bool) :=
  let plist := session_view_message.participants_in_the_room
  if s.session_id_is_set then none
  else
    match (plist.take 0).foldl (setup_session_view_step P) (some s.participants) with
    | none => none
    | some participants => compute_session_id P { s with participants := participants }

/-- The member `everybody_authenticated_and_contributed`. -/
def everybody_authenticated_and_contributed (s : np1secSession) : Bool :=
  s.participants.all (fun it => it.2.authenticated && it.2.cur_keyshare.isSome)

/-- The loop of `everybody_confirmed` over the bits of `confirmed` that are
still ahead of the iterator.  The loop runs while `it != participants.end()`,
the end of another container, which an iterator into `confirmed` does not
meet: a cleared bit returns false, and behind the last bit the next `*it`
reads past the end of `confirmed`, which is undefined. -/
def everybody_confirmed_loop : List Bool → Option Bool
  | [] => none
  | it :: rest => if it then everybody_confirmed_loop rest else some false

/-- The member `everybody_confirmed`; the container `confirmed` is the vector
`confirmed_peers`.  The statement `return true` behind the loop is reached on
no input. -/
def everybody_confirmed (s : np1secSession) : Option Bool :=
  everybody_confirmed_loop s.confirmed_peers

/-- The loop of `joiner_send_auth_and_share`, at index `i`: for a peer whose
`authed_to` is false, `authenticate_to` is called and the bytes of `i` and the
token are appended to `auth_batch`; `none` when `authenticate_to` throws. -/
def joiner_auth_loop (P : Primitives) (Q : SessionPrimitives) (cryptic : Cryptic) :
    List String → Nat → ParticipantMap → String → Option (ParticipantMap × String)
  | [], _, participants, auth_batch => some (participants, auth_batch)
  | peer :: rest, i, participants, auth_batch =>
    let r := StdMap.index participants peer
    if r.1.authed_to then joiner_auth_loop P Q cryptic rest (i + 1) r.2 auth_batch
    else
      match authenticate_to P r.1 Q.thread_user_id_key cryptic with
      | none => none
      | some a =>
        joiner_auth_loop P Q cryptic rest (i + 1) (StdMap.assign r.2 peer a.1)
          (auth_batch ++ P.uint32_bytes i ++ hash_to_string_buff a.2)

/-- The member `joiner_send_auth_and_share`: the session afterwards, the
messages sent and the returned flag; `none` when the assertion fails or
`authenticate_to` throws.  In the call of `create_participant_info` the
argument `auth_batch,` stands behind `//` on the line of `""`, so the message
is built from `JOINER_AUTH`, `sid`, `""` and `session_key_share`. -/
def joiner_send_auth_and_share (P : Primitives) (Q : SessionPrimitives) (s : np1secSession) :
    Option (np1secSession × List SentMessage × Bool) :=
  if s.session_id_is_set then
    match Q.group_enc s with
    | none => some (s, [], false)
    | some share =>
      let s1 := { s with session_key_share := some share }
      match joiner_auth_loop P Q s1.cryptic s1.peers 0 s1.participants "" with
      | none => none
      | some r =>
        let outboundmessage : SentMessage :=
          { message_type := np1secMessageType.JOINER_AUTH
            sid := s1.session_id
            unauthenticated_participants := some ""
            auth := none
            key_share := s1.session_key_share
            confirmation := none }
        some ({ s1 with participants := r.1 }, [outboundmessage], true)
  else none

/-- The member `np1secSession::state_handler`: the session afterwards, or the
exception thrown.  Every case but `NONE` is a bare `break`. -/
def state_handler (s : np1secSession) (_receivd_message : np1secMessage) :
    Except np1secException np1secSession :=
  match s.my_state with
  | np1secSessionState.NONE => Except.error np1secException.np1secSessionStateException
  | np1secSessionState.JOIN_REQUESTED => Except.ok s
  | np1secSessionState.REPLIED_TO_NEW_JOIN => Except.ok s
  | np1secSessionState.GROUP_KEY_GENERATED => Except.ok s
  | np1secSessionState.IN_SESSION => Except.ok s
  | np1secSessionState.UPDATED_KEY => Except.ok s
  | np1secSessionState.LEAVE_REQUESTED => Except.ok s
  | np1secSessionState.FAREWELLED => Except.ok s
  | np1secSessionState.DEAD => Except.ok s
  | np1secSessionState.RE_SHARED => Except.ok s

/-- The checks of `auth_and_reshare` after its first block: the sender must be
found, then authenticate, and only then its key share is stored.  The id `my_id`
is the id of `myself`. -/
def auth_and_reshare_checks (P : Primitives) (Q : SessionPrimitives) (s : np1secSession)
    (sent : List SentMessage) (received_message : np1secMessage) : HandlerResult :=
  match StdMap.find? s.participants received_message.sender_id with
  | none => ⟨s, sent, false, np1secSessionState.DEAD⟩
  | some p =>
    let a := authenticate P p s.myself.id received_message.kc Q.thread_user_id_key s.cryptic
    let s1 := { s with participants := StdMap.assign s.participants received_message.sender_id a.1 }
    if a.2 then
      let p2 := set_key_share a.1 received_message.z_share
      ⟨{ s1 with participants := StdMap.assign s1.participants received_message.sender_id p2 },
        sent, false, s.my_state⟩
    else ⟨s1, sent, false, np1secSessionState.DEAD⟩

/-- The member `np1secSession::auth_and_reshare`; `none` when an assertion
fails or an exception escapes.  The call `send_auth_and_share_message()` is
the one of `joiner_send_auth_and_share`. -/
def auth_and_reshare (P : Primitives) (Q : SessionPrimitives) (s : np1secSession)
    (received_message : np1secMessage) : Option HandlerResult :=
  if s.session_id_is_set then some (auth_and_reshare_checks P Q s [] received_message)
  else
    match setup_session_view P s received_message with
    | none => none
    | some r =>
      if r.2 then
        match joiner_send_auth_and_share P Q r.1 with
        | none => none
        | some j => some (auth_and_reshare_checks P Q j.1 j.2.1 received_message)
      else some ⟨r.1, [], false, np1secSessionState.DEAD⟩

/-- The assignment `confirmed_peers[participant[sender_id].index] = true`.
For a sender without an entry `operator[]` creates one, whose
`in_session_index` no constructor initialises: the index read is undefined;
so is the write for an index outside the vector. -/
def mark_confirmed (s : np1secSession) (sender_id : String) : Option np1secSession :=
  match StdMap.find? s.participants sender_id with
  | none => none
  | some p =>
    if p.in_session_index < s.confirmed_peers.length then
      some { s with confirmed_peers := s.confirmed_peers.set p.in_session_index true }
    else none

/-- The member `np1secSession::confirm_or_resession`; `new_child_session` is
the session that `new np1secSession(room_name)` constructs.  In the branch for
a confirmation that does not validate, `my_state` is set to `DEAD` before the
bare `return`. -/
def confirm_or_resession (Q : SessionPrimitives) (new_child_session : np1secSession)
    (t : SessionWithChildren) (received_message : np1secMessage) :
    Option ChildHandlerResult :=
  if received_message.sid = t.session.session_id then
    if Q.validate_session_confirmation t.session then
      match mark_confirmed t.session received_message.sender_id with
      | none => none
      | some s1 =>
        match everybody_confirmed s1 with
        | none => none
        | some true => some ⟨s1, t.my_children, np1secSessionState.IN_SESSION⟩
        | some false => some ⟨s1, t.my_children, s1.my_state⟩
    else
      some ⟨{ t.session with my_state := np1secSessionState.DEAD }, t.my_children,
        np1secSessionState.DEAD⟩
  else if new_child_session.session_id_is_set then
    some ⟨t.session,
      StdMap.assign t.my_children new_child_session.session_id
        { new_child_session with my_parent := some t.session.session_id },
      np1secSessionState.DEAD⟩
  else some ⟨t.session, t.my_children, np1secSessionState.DEAD⟩

/-- The member `np1secSession::send_auth_share_and_participant_info`;
`new_child_session` is the session that the constructor call yields. -/
def send_auth_share_and_participant_info (new_child_session : np1secSession)
    (t : SessionWithChildren) (_received_message : np1secMessage) : ChildHandlerResult :=
  if new_child_session.session_id_is_set then
    ⟨t.session,
      StdMap.assign t.my_children new_child_session.session_id
        { new_child_session with my_parent := some t.session.session_id },
      t.session.my_state⟩
  else ⟨t.session, t.my_children, t.session.my_state⟩

/-- The value of a function name that stands as a condition without being
called, as in `if (everybody_authenticated_and_contributed)`: the function is
not run and the condition holds. -/
def function_name_as_condition (_f : np1secSession → Bool) : Bool := true

/-- The second half of `confirm_auth_add_update_share_repo`, from
`if (everybody_authenticated_and_contributed)` on. -/
def confirm_auth_group_key (Q : SessionPrimitives) (s : np1secSession) : HandlerResult :=
  if function_name_as_condition everybody_authenticated_and_contributed then
    if Q.group_dec s then
      let outboundmessage : SentMessage :=
        { message_type := np1secMessageType.SESSION_CONFIRMATION
          sid := s.session_id
          unauthenticated_participants := some (Q.unauthenticated_participants s)
          auth := some ""
          key_share := none
          confirmation := some (Q.session_confirmation s) }
      ⟨s, [outboundmessage], false, np1secSessionState.GROUP_KEY_GENERATED⟩
    else ⟨s, [], false, np1secSessionState.DEAD⟩
  else ⟨s, [], false, s.my_state⟩

/-- The function `confirm_auth_add_update_share_repo`.  For `JOINER_AUTH` the
sender is read with `participants[sender_id]`, authenticated, and its key share
stored; `kill_all_my_siblings()` acts on other sessions only. -/
def confirm_auth_add_update_share_repo (P : Primitives) (Q : SessionPrimitives)
    (s : np1secSession) (received_message : np1secMessage) : HandlerResult :=
  if received_message.message_type = np1secMessageType.JOINER_AUTH then
    let r := StdMap.index s.participants received_message.sender_id
    let a := authenticate P r.1 s.myself.id received_message.kc Q.thread_user_id_key s.cryptic
    let s1 := { s with participants := StdMap.assign r.2 received_message.sender_id a.1 }
    if a.2 then
      let p2 := set_key_share a.1 received_message.z_share
      confirm_auth_group_key Q
        { s1 with participants := StdMap.assign s1.participants received_message.sender_id p2 }
    else ⟨s1, [], false, np1secSessionState.DEAD⟩
  else confirm_auth_group_key Q s

/-- The member `np1secSession::mark_confirm_and_may_move_session`; `none` when
the assignment of the confirmation bit or `everybody_confirmed()` is
undefined.  The sid of the message is not read. -/
def mark_confirm_and_may_move_session (Q : SessionPrimitives) (s : np1secSession)
    (received_message : np1secMessage) : Option HandlerResult :=
  if Q.validate_session_confirmation s then
    match mark_confirmed s received_message.sender_id with
    | none => none
    | some s1 =>
      match mark_confirmed s1 received_message.sender_id with
      | none => none
      | some s2 =>
        match everybody_confirmed s2 with
        | none => none
        | some true => some ⟨s2, [], true, np1secSessionState.IN_SESSION⟩
        | some false => some ⟨s2, [], false, s2.my_state⟩
  else some ⟨s, [], false, np1secSessionState.DEAD⟩

/-- The statements of `send_farewell_and_reshare` behind
`std::string meta_load = NULL;`: the message `outbound` is built, with a call
of `group_enc()`, and not sent; the child is attached when its id is set;
`my_state` is returned without having been written. -/
def send_farewell_and_reshare_tail (Q : SessionPrimitives)
    (new_child_session : np1secSession) (t : SessionWithChildren) : ChildHandlerResult :=
  let s1 : np1secSession :=
    match Q.group_enc t.session with
    | some share => { t.session with session_key_share := some share }
    | none => t.session
  if new_child_session.session_id_is_set then
    ⟨s1,
      StdMap.assign t.my_children new_child_session.session_id
        { new_child_session with my_parent := some s1.session_id },
      s1.my_state⟩
  else ⟨s1, t.my_children, s1.my_state⟩

/-- The member `np1secSession::send_farewell_and_reshare`; `new_child_session`
is the session that the constructor call yields.  The body opens with
`LoadFlag meta_load_flag = NO_LOAD; std::string meta_load = NULL;`, so no call
gets past its second statement. -/
def send_farewell_and_reshare (Q : SessionPrimitives) (new_child_session : np1secSession)
    (t : SessionWithChildren) (_received_message : np1secMessage) :
    Option ChildHandlerResult :=
  match string_from_null with
  | none => none
  | some _meta_load => some (send_farewell_and_reshare_tail Q new_child_session t)

/-! ## session.cc: constructors and join -/

/-- The member `send_view_auth_and_share`, which the constructor for a join
request calls as `send_info_auth_and_share_message()`: the session afterwards,
the messages sent and the returned flag; `none` when the assertion fails or
`authenticate_to` throws.  The argument `auth_token` of the message is the
token `cur_auth_token`. -/
def send_view_auth_and_share (P : Primitives) (Q : SessionPrimitives) (s : np1secSession)
    (joiner_id : String) : Option (np1secSession × List SentMessage × Bool) :=
  if s.session_id_is_set then
    match Q.group_enc s with
    | none => some (s, [], false)
    | some share =>
      let s1 := { s with session_key_share := some share }
      let r := StdMap.index s1.participants joiner_id
      match authenticate_to P r.1 Q.thread_user_id_key s1.cryptic with
      | none => none
      | some a =>
        let outboundmessage : SentMessage :=
          { message_type := np1secMessageType.PARTICIPANT_INFO
            sid := s1.session_id
            unauthenticated_participants := some (Q.unauthenticated_participants s1)
            auth := some (hash_to_string_buff a.2)
            key_share := s1.session_key_share
            confirmation := none }
        some ({ s1 with participants := StdMap.assign r.2 joiner_id a.1 },
          [outboundmessage], true)
  else none

/-- The member `send_share_message`: the session afterwards, the messages sent
and the returned flag; `none` when the assertion fails. -/
def send_share_message (Q : SessionPrimitives) (s : np1secSession) :
    Option (np1secSession × List SentMessage × Bool) :=
  if s.session_id_is_set then
    match Q.group_enc s with
    | none => some (s, [], false)
    | some share =>
      let s1 := { s with session_key_share := some share }
      let outboundmessage : SentMessage :=
        { message_type := np1secMessageType.RE_SHARE
          sid := s1.session_id
          unauthenticated_participants := none
          auth := none
          key_share := s1.session_key_share
          confirmation := none }
      some (s1, [outboundmessage], true)
  else none

/-- The constructor `np1secSession(us, room_name, participants_in_the_room)`
of a joiner.  Its body is empty; `s0` holds the members as the class
declaration of session.h initialises them. -/
def joiner_constructor (s0 : np1secSession) (us_user_id : String) (room_name : String)
    (participants_in_the_room : List UnauthenticatedParticipant) : np1secSession :=
  { s0 with
    room_name := room_name
    participants_in_the_room := participants_in_the_room
    myself := Participant.new us_user_id }

/-- The constructor `np1secSession(room_name, join_message,
current_authed_participants)` that an incumbent runs on a join request: the
session and the messages sent; `none` when `MessageFormatException` is thrown,
an assertion fails or `authenticate_to` throws.  The joiner is
`received_message.joiner_participant()`; the two statements that add it are
those of the loop of `setup_session_view`.  `s0` holds the members as the
class declaration initialises them. -/
def join_request_constructor (P : Primitives) (Q : SessionPrimitives) (s0 : np1secSession)
    (room_name : String) (join_message : np1secMessage)
    (current_authed_participants : ParticipantMap) :
    Option (np1secSession × List SentMessage) :=
  let s1 := { s0 with
    room_name := room_name
    my_state := np1secSessionState.DEAD
    participants := current_authed_participants }
  let joiner := join_message.joiner_participant
  match setup_session_view_step P (some s1.participants) joiner with
  | none => none
  | some participants =>
    match compute_session_id P { s1 with participants := participants } with
    | none => none
    | some c =>
      match send_view_auth_and_share P Q c.1 joiner.participant_id with
      | none => none
      | some r =>
        if r.2.2 then
          some ({ r.1 with my_state := np1secSessionState.REPLIED_TO_NEW_JOIN }, r.2.1)
        else some (r.1, r.2.1)

/-- The constructor `np1secSession(room_name, leaver_id,
current_authed_participants)` that an incumbent runs on a leave: the session
and the messages sent; `none` when `MessageFormatException` is thrown or an
assertion fails.  The map is copied into the session first, and
`drop_participant(leaver_id)` then acts on `current_authed_participants`, the
by-value parameter, which is not read again.  The names `participant_id` and
`it->ephemeral_key` of the next statement are not declared in the
constructor; they are the parameters `participant_id` and `ephemeral_key`. -/
def leave_constructor (P : Primitives) (Q : SessionPrimitives) (s0 : np1secSession)
    (room_name : String) (leaver_id : String) (current_authed_participants : ParticipantMap)
    (participant_id : String) (ephemeral_key : HashBlock) :
    Option (np1secSession × List SentMessage) :=
  let s1 := { s0 with
    room_name := room_name
    my_state := np1secSessionState.DEAD
    participants := current_authed_participants }
  let _dropped := StdMap.erase current_authed_participants leaver_id
  let r := StdMap.index s1.participants participant_id
  let k := set_ephmeral_key P r.1 ephemeral_key
  if k.2 then
    match compute_session_id P
        { s1 with participants := StdMap.assign r.2 participant_id k.1 } with
    | none => none
    | some c =>
      match send_share_message Q c.1 with
      | none => none
      | some r =>
        if r.2.2 then some ({ r.1 with my_state := np1secSessionState.RE_SHARED }, r.2.1)
        else some (r.1, r.2.1)
  else none

/-- The participant that `Participant()` constructs for a new map entry when
the member `in_session_index`, which the constructor does not initialise,
holds `garbage`. -/
def Participant.uninitialised (garbage : Nat) : Participant :=
  { Participant.new "" with in_session_index := garbage }

/-- The assignment `peers[0] = myself.id`: the first element of the vector is
overwritten; on an empty vector there is no element 0 and the assignment is
undefined. -/
def set_first_peer (peers : List String) (id : String) : Option (List String) :=
  match peers with
  | [] => none
  | _ :: rest => some (id :: rest)

/-- The member `np1secSession::join`: the session afterwards, the calls of
`send_bare` and the returned flag; `none` when `peers[0] = myself.id` is
undefined or the assertion on `compute_session_id()` fails.  The statement
`participants[myself.id];` creates the entry when it is missing, with
`garbage` in the uninitialised `in_session_index`.  The member `my_state` is
not written. -/
def join (P : Primitives) (garbage : Nat) (us_user_id : String) (s : np1secSession)
    (_long_term_id_key : LongTermIDKey) :
    Option (np1secSession × List BareMessage × Bool) :=
  match P.cryptic_init s.cryptic with
  | none => some (s, [], false)
  | some cryptic =>
    let myself := { s.myself with ephemeral_key := cryptic.ephemeral_pub_key }
    let participants :=
      match StdMap.find? s.participants myself.id with
      | some _ => s.participants
      | none => StdMap.assign s.participants myself.id (Participant.uninitialised garbage)
    match set_first_peer s.peers myself.id with
    | none => none
    | some peers =>
      let s1 := { s with
        cryptic := cryptic
        myself := myself
        participants := participants
        peers := peers }
      let testing : BareMessage := ⟨s1.room_name, us_user_id, "testing 123"⟩
      if s1.participants_in_the_room.length = 1 then
        match compute_session_id P s1 with
        | none => none
        | some c => if c.2 then some (c.1, [testing], true) else none
      else some (s1, [testing], true)

/-! ## userstate.cc: construction and rooms -/

/-- The member `LongTermIDKey::generate`; `none` when `generate_key_pair`
throws.  The flag that `generate_key_pair` returns is not read, and the
public key is `extract_public_key` of the generated key. -/
def LongTermIDKey.generate (P : Primitives) (_k : LongTermIDKey) : Option LongTermIDKey :=
  match P.generate_key_pair with
  | none => none
  | some g => some { key_pair := (g.2, P.public_key_of g.2), initiated := true }

/-- The constructor `np1secUserState(name, ops, key_pair)`.  The branch for a
given `key_pair` holds only the comment
`FIXME: populate long_term_private_key from key_pair`; the long-term key is
the one that `LongTermIDKey()` constructs. -/
def np1secUserState.new (name : String) (_key_pair : Option String) : np1secUserState :=
  { name := name
    long_term_key_pair := ⟨(none, none), false⟩
    session_in_a_room := []
    sent_bare := [] }

/-- The member `np1secUserState::init`; `none` when `generate` throws.  The
member `generate` is declared `void`; its call stands for true. -/
def np1secUserState.init (P : Primitives) (us : np1secUserState) :
    Option (np1secUserState × Bool) :=
  if us.long_term_key_pair.initiated then some (us, true)
  else
    match LongTermIDKey.generate P us.long_term_key_pair with
    | none => none
    | some k => some ({ us with long_term_key_pair := k }, true)

/-- The member `np1secUserState::join_room`; `s0` and `garbage` are those of
`joiner_constructor` and `join`.  The new session is stored with
`session_in_a_room.insert`, which keeps an entry that the room already has. -/
def join_room (P : Primitives) (s0 : np1secSession) (garbage : Nat) (us : np1secUserState)
    (room_name : String) (participants_in_the_room : List UnauthenticatedParticipant) :
    Option (np1secUserState × Bool) :=
  let new_session := joiner_constructor s0 us.name room_name participants_in_the_room
  match join P garbage us.name new_session us.long_term_key_pair with
  | none => none
  | some r =>
    let us1 := { us with sent_bare := us.sent_bare ++ r.2.1 }
    if r.2.2 then
      some ({ us1 with session_in_a_room := StdMap.insert us1.session_in_a_room room_name r.1 },
        true)
    else some (us1, false)

/-! ## Reference definitions and test data -/

/-- The string that the session id hashes, written from the description: for
every peer in list order, the participant's id followed by its ephemeral key
bytes.  A name without an entry stands for the default participant. -/
def session_id_input (P : Primitives) (participants : ParticipantMap)
    (peers : List String) : String :=
  String.join (peers.map (fun n =>
    ((StdMap.find? participants n).getD default).id ++
      P.retrieve_result ((StdMap.find? participants n).getD default).ephemeral_key))

/-- The chain `H_1, ..., H_n` recomputed from `H_0` by
`H_i = hash(H_{i-1} || ":O3" || plaintext_i)`. -/
def recomputed_chain (P : Primitives) : HashBlock → List String → List HashBlock
  | _, [] => []
  | h, plaintext :: rest =>
    let h1 := P.compute_message_hash (P.stream_block h ++ (":O3" ++ plaintext))
    h1 :: recomputed_chain P h1 rest

/-- Splitting of a character list at the bars (character 124); `acc` holds
the current piece, reversed. -/
def split_bars : List Char → List Char → List String
  | [], acc => [String.mk acc.reverse]
  | c :: cs, acc =>
    if c = Char.ofNat 124 then String.mk acc.reverse :: split_bars cs []
    else split_bars cs (c :: acc)

/-- Test primitives: every hash wraps its input unchanged, keys are their own
bytes, and a raw message `"sender|hash|text"` is split at the bars. -/
def toy : Primitives :=
  { hash := fun x => ⟨x⟩
    compute_session_hash := fun x => ⟨x⟩
    compute_message_hash := fun x => ⟨x⟩
    retrieve_result := fun k => k.getD ""
    public_key_to_stringbuff := fun k => k.getD ""
    public_key_of := fun k => k
    triple_ed_dh := fun _ eph lt mine _ => some ⟨eph.getD "" ++ lt.getD "" ++ mine.getD ""⟩
    stream_block := fun h => h.buff
    id_to_stringbuffer := fun x => x
    uint32_bytes := fun i => String.mk [Char.ofNat (48 + i)]
    convert_to_sexp := fun x => if x = "" then none else some x
    cryptic_init := fun _ => some ⟨some "EK", some "EPUB", some "EPRV"⟩
    generate_key_pair := some (true, some "GENERATED")
    parse_message := fun raw _ =>
      match split_bars raw.toList [] with
      | [sender, h, text] =>
        { sid := ⟨""⟩, sender_id := sender, user_message := text
          message_type := np1secMessageType.USER_MESSAGE
          message_id := 1, transcript_chain_hash := ⟨h⟩ }
      | _ =>
        { sid := ⟨""⟩, sender_id := "", user_message := ""
          message_type := np1secMessageType.PURE_META_MESSAGE
          message_id := 0, transcript_chain_hash := ⟨""⟩ } }

/-- Participant "alice" with ephemeral key `"EA"`. -/
def alice : Participant := { Participant.new "alice" with ephemeral_key := some "EA" }

/-- Participant "bob" with ephemeral key `"EB"`. -/
def bob : Participant := { Participant.new "bob" with ephemeral_key := some "EB" }

/-- A session of alice and bob in room "room": the chain holds `H_0`, the
session id, and an ack of bob is awaited. -/
def sample_session : np1secSession :=
  { room_name := "room"
    myself := alice
    cryptic := ⟨none, none, none⟩
    my_state := np1secSessionState.IN_SESSION
    participants := [("alice", alice), ("bob", bob)]
    peers := ["alice", "bob"]
    session_id := ⟨"sid"⟩
    session_id_is_set := true
    transcript_chain := [(0, ⟨"sid"⟩)]
    awaiting_ack := [("bob", some ⟨TimerCallback.cb_ack_not_received⟩)]
    acks_to_send := [("bob", some ⟨TimerCallback.cb_send_ack⟩)] }

/-- A session of alice and bob whose id has not been computed yet. -/
def fresh_session : np1secSession :=
  { sample_session with
    session_id := HashBlock.zero
    session_id_is_set := false
    transcript_chain := [] }

/-- The user state of alice, with `sample_session` in room "room" and nothing
sent to the transport yet. -/
def sample_user_state : np1secUserState :=
  { name := "alice"
    long_term_key_pair := ⟨(none, none), false⟩
    session_in_a_room := [("room", sample_session)]
    sent_bare := [] }

/-- Test primitives with a triple Diffie-Hellman stand-in that both sides
compute alike: the contribution of the peer (its ephemeral and long-term
public key) and the one of the thread user, the peer's first when
`peer_is_first` holds. -/
def toy_dh : Primitives :=
  { toy with
    triple_ed_dh := fun crypto eph lt mine peer_is_first =>
      let peer := eph.getD "" ++ lt.getD ""
      let me := crypto.ephemeral_pub_key.getD "" ++ mine.getD ""
      some ⟨if peer_is_first then peer ++ me else me ++ peer⟩ }

/-- Participant "alice" with long-term public key `"LA"`. -/
def alice_lt : Participant := { alice with long_term_pub_key := some "LA" }

/-- Participant "bob" with long-term public key `"LB"` and index 1. -/
def bob_lt : Participant :=
  { bob with long_term_pub_key := some "LB", in_session_index := 1 }

/-- The ephemeral key material of alice. -/
def alice_crypto : Cryptic := ⟨some "EA", some "EA", some "ea"⟩

/-- The ephemeral key material of bob. -/
def bob_crypto : Cryptic := ⟨some "EB", some "EB", some "eb"⟩

/-- Test session members for alice: her long-term key is `"LA"`, `group_enc`
yields the share `"ZA"`, `group_dec` succeeds exactly when everybody is
authenticated and has contributed, and every confirmation validates. -/
def toy_session : SessionPrimitives :=
  { thread_user_id_key := some "LA"
    group_enc := fun _ => some ⟨"ZA"⟩
    group_dec := fun s => everybody_authenticated_and_contributed s
    validate_session_confirmation := fun _ => true
    session_confirmation := fun _ => "confirmed"
    unauthenticated_participants := fun _ => "" }

/-- The session of alice as a joiner of a room with bob: the id is set, no
token has been sent, the share of bob is missing and bob has not confirmed. -/
def joiner_session : np1secSession :=
  { sample_session with
    myself := alice_lt
    cryptic := alice_crypto
    my_state := np1secSessionState.JOIN_REQUESTED
    participants := [("alice", alice_lt), ("bob", bob_lt)]
    confirmed_peers := [true, false] }

/-- The session `joiner_session` of an incumbent in state
`REPLIED_TO_NEW_JOIN`. -/
def incumbent_session : np1secSession :=
  { joiner_session with my_state := np1secSessionState.REPLIED_TO_NEW_JOIN }

/-- The session `joiner_session` in state `DEAD`. -/
def dead_session : np1secSession :=
  { joiner_session with my_state := np1secSessionState.DEAD }

/-- The members `toy_session` with a `group_dec` that always succeeds. -/
def toy_session_dec : SessionPrimitives :=
  { toy_session with group_dec := fun _ => true }

/-- A session confirmation from bob for the session id `"sid"`. -/
def confirmation_from_bob : np1secMessage :=
  { sid := ⟨"sid"⟩
    sender_id := "bob"
    user_message := ""
    message_type := np1secMessageType.SESSION_CONFIRMATION
    message_id := 0
    transcript_chain_hash := ⟨""⟩ }

/-- A session confirmation from bob for another session id. -/
def confirmation_other_sid : np1secMessage :=
  { confirmation_from_bob with sid := ⟨"other"⟩ }

/-- A `PARTICIPANT_INFO` message from bob. -/
def participant_info_from_bob : np1secMessage :=
  { confirmation_from_bob with message_type := np1secMessageType.PARTICIPANT_INFO }

/-- A joiner session whose id, `"sid2"`, has been computed. -/
def rejoin_session : np1secSession :=
  { fresh_session with session_id := ⟨"sid2"⟩, session_id_is_set := true }

/-- A session object before a constructor body runs: every container is
empty, no state and no session id are set. -/
def blank_session : np1secSession :=
  { room_name := ""
    myself := Participant.new ""
    cryptic := ⟨none, none, none⟩
    my_state := np1secSessionState.NONE
    participants := []
    peers := []
    session_id := HashBlock.zero
    session_id_is_set := false
    transcript_chain := []
    awaiting_ack := []
    acks_to_send := [] }

/-- The entries of alice and bob in a participant list of a room. -/
def room_list : List UnauthenticatedParticipant :=
  [⟨"alice", ⟨"EA"⟩⟩, ⟨"bob", ⟨"EB"⟩⟩]

/-- Participant "carol" with ephemeral key `"EC"`. -/
def carol : Participant := { Participant.new "carol" with ephemeral_key := some "EC" }

/-- The authenticated participants alice, bob and carol of a session. -/
def three_participants : ParticipantMap :=
  [("alice", alice), ("bob", bob), ("carol", carol)]

/-- A session object whose vector `peers` already holds "alice". -/
def seeded_session : np1secSession := { blank_session with peers := ["alice"] }

/-- The user state of alice whose room "room" holds the session
`dead_session`. -/
def dead_user_state : np1secUserState :=
  { sample_user_state with session_in_a_room := [("room", dead_session)] }

/-- A session view from bob that lists alice, bob and carol. -/
def session_view_with_carol : np1secMessage :=
  { participant_info_from_bob with
    participants_in_the_room := room_list ++ [⟨"carol", ⟨"EC"⟩⟩] }

/-- The members `toy_session` with a `group_enc` that fails. -/
def toy_session_no_share : SessionPrimitives :=
  { toy_session with group_enc := fun _ => none }

/-- Test primitives whose `Cryptic::init` fails. -/
def toy_no_init : Primitives := { toy with cryptic_init := fun _ => none }

/-- The order of participants as the comment at `operator<` describes it:
the nickname decides first, and the bytes of the long-term public key decide
between equal nicknames. -/
def nickname_then_key_less (P : Primitives) (a b : Participant) : Bool :=
  string_less a.nickname b.nickname ||
    (decide (a.nickname = b.nickname) &&
      string_less (P.public_key_to_stringbuff a.long_term_pub_key)
        (P.public_key_to_stringbuff b.long_term_pub_key))

/-- Participant "bob" with nickname "bob" and long-term public key `"K1"`. -/
def bob_k1 : Participant :=
  { Participant.new "bob" with nickname := "bob", long_term_pub_key := some "K1" }

/-- Participant "alice" with nickname "alice" and long-term public key
`"K2"`. -/
def alice_k2 : Participant :=
  { Participant.new "alice" with nickname := "alice", long_term_pub_key := some "K2" }

/-- A session of alice, bob and carol in state `IN_SESSION`. -/
def session_of_three : np1secSession :=
  { sample_session with
    participants := three_participants
    peers := ["alice", "bob", "carol"] }

/-- Participant "carol" with long-term public key `"LC"` and index 2. -/
def carol_lt : Participant :=
  { carol with long_term_pub_key := some "LC", in_session_index := 2 }

/-- The session of alice as an incumbent with bob and carol: alice has
confirmed, bob and carol have not. -/
def incumbent_of_three : np1secSession :=
  { incumbent_session with
    participants := [("alice", alice_lt), ("bob", bob_lt), ("carol", carol_lt)]
    peers := ["alice", "bob", "carol"]
    confirmed_peers := [true, false, false] }

/-- Whether every confirmation bit set in `before` is still set in `after`. -/
def confirmation_bits_kept (before after : np1secSession) : Prop :=
  ∀ j : Nat, before.confirmed_peers[j]? = some true → after.confirmed_peers[j]? = some true

/-! ## Lemmas on maps and strings -/

theorem StdMap.find?_assign_self {K V : Type} [DecidableEq K] [StdLess K]
    (m : StdMap K V) (k : K) (v : V) :
    StdMap.find? (StdMap.assign m k v) k = some v := by
  induction m with
  | nil => simp [StdMap.assign, StdMap.find?]
  | cons e rest ih =>
    obtain ⟨k', v'⟩ := e
    simp only [StdMap.assign]
    split_ifs with h1 h2
    · simp [StdMap.find?]
    · simp [StdMap.find?]
    · simp [StdMap.find?, h2, ih]

theorem StdMap.find?_assign_ne {K V : Type} [DecidableEq K] [StdLess K]
    (m : StdMap K V) (k j : K) (v : V) (hne : j ≠ k) :
    StdMap.find? (StdMap.assign m k v) j = StdMap.find? m j := by
  induction m with
  | nil => simp [StdMap.assign, StdMap.find?, Ne.symm hne]
  | cons e rest ih =>
    obtain ⟨k', v'⟩ := e
    simp only [StdMap.assign]
    split_ifs with h1 h2
    · simp [StdMap.find?, Ne.symm hne]
    · subst h2
      simp [StdMap.find?, Ne.symm hne]
    · simp [StdMap.find?, ih]

theorem StdMap.find?_index {K V : Type} [DecidableEq K] [StdLess K] [Inhabited V]
    (m : StdMap K V) (k j : K) :
    (StdMap.find? (StdMap.index m k).2 j).getD default = (StdMap.find? m j).getD default := by
  unfold StdMap.index
  cases hk : StdMap.find? m k with
  | some v => rfl
  | none =>
    by_cases hj : j = k
    · subst hj
      simp [StdMap.find?_assign_self, hk]
    · simp [StdMap.find?_assign_ne m k j default hj]

theorem StdMap.index_fst {K V : Type} [DecidableEq K] [StdLess K] [Inhabited V]
    (m : StdMap K V) (k : K) :
    (StdMap.index m k).1 = (StdMap.find? m k).getD default := by
  unfold StdMap.index
  cases StdMap.find? m k <;> rfl

theorem string_foldl_append (l : List String) (acc : String) :
    List.foldl (fun r s => r ++ s) acc l = acc ++ String.join l := by
  induction l generalizing acc with
  | nil => simp [String.join]
  | cons a rest ih =>
    have h1 := ih (acc ++ a)
    have h2 := ih ("" ++ a)
    simp only [String.join, List.foldl_cons] at h1 h2 ⊢
    rw [h1, h2, String.empty_append, String.append_assoc]

theorem string_join_cons (a : String) (l : List String) :
    String.join (a :: l) = a ++ String.join l := by
  have h := string_foldl_append l ("" ++ a)
  simp only [String.join, List.foldl_cons] at h ⊢
  rw [h, String.empty_append]

/-! ## The session id -/

theorem session_id_input_index (P : Primitives) (participants : ParticipantMap)
    (k : String) (peers : List String) :
    session_id_input P (StdMap.index participants k).2 peers =
      session_id_input P participants peers := by
  unfold session_id_input
  congr 1
  apply List.map_congr_left
  intro n _
  rw [StdMap.find?_index participants k n]

theorem compute_session_id_loop_snd (P : Primitives) (peers : List String)
    (participants : ParticipantMap) (cat_string : String) :
    (compute_session_id_loop P peers participants cat_string).2 =
      cat_string ++ session_id_input P participants peers := by
  induction peers generalizing participants cat_string with
  | nil => simp [compute_session_id_loop, session_id_input, String.join]
  | cons it rest ih =>
    simp only [compute_session_id_loop]
    rw [ih, session_id_input_index, StdMap.index_fst]
    simp only [session_id_input, List.map_cons, string_join_cons, String.append_assoc]

theorem session_id_input_congr (P : Primitives) (m1 m2 : ParticipantMap)
    (peers : List String)
    (hsame : ∀ n ∈ peers,
      ((StdMap.find? m1 n).getD default).id = ((StdMap.find? m2 n).getD default).id ∧
      ((StdMap.find? m1 n).getD default).ephemeral_key =
        ((StdMap.find? m2 n).getD default).ephemeral_key) :
    session_id_input P m1 peers = session_id_input P m2 peers := by
  unfold session_id_input
  congr 1
  apply List.map_congr_left
  intro n hn
  rw [(hsame n hn).1, (hsame n hn).2]

theorem compute_session_id_of_peers (P : Primitives) (s : np1secSession)
    (hunset : s.session_id_is_set = false) (hne : s.peers ≠ []) :
    compute_session_id P s =
      some ({ s with
              participants := (compute_session_id_loop P s.peers s.participants "").1
              session_id := P.compute_session_hash (session_id_input P s.participants s.peers)
              session_id_is_set := true }, true) := by
  have hlen : ¬ s.peers.length = 0 := by
    intro h
    exact hne (List.length_eq_zero.mp h)
  simp only [compute_session_id, hunset, hlen, compute_session_id_loop_snd,
    String.empty_append]
  rfl

/-- C1: on a session whose id is not yet set, `compute_session_id` with a
non-empty peers list sets the session id to the hash of the concatenation, in
peers-list order, of each participant's id followed by its ephemeral key
bytes, marks the id as set and returns true; with an empty peers list it
returns false and leaves the session, and so the unset id, as it was. -/
theorem compute_session_id_spec (P : Primitives) (s : np1secSession)
    (hunset : s.session_id_is_set = false) :
    (s.peers ≠ [] →
      ∃ s', compute_session_id P s = some (s', true) ∧
        s'.session_id = P.compute_session_hash (session_id_input P s.participants s.peers) ∧
        s'.session_id_is_set = true) ∧
    (s.peers = [] → compute_session_id P s = some (s, false)) := by
  constructor
  · intro hne
    exact ⟨_, compute_session_id_of_peers P s hunset hne, rfl, rfl⟩
  · intro hnil
    simp [compute_session_id, hunset, hnil]

theorem compute_session_id_spec_witness :
    fresh_session.session_id_is_set = false ∧
    ((fresh_session.peers ≠ [] →
      ∃ s', compute_session_id toy fresh_session = some (s', true) ∧
        s'.session_id = toy.compute_session_hash
          (session_id_input toy fresh_session.participants fresh_session.peers) ∧
        s'.session_id_is_set = true) ∧
    (fresh_session.peers = [] →
      compute_session_id toy fresh_session = some (fresh_session, false))) :=
  ⟨by decide, compute_session_id_spec toy fresh_session (by decide)⟩

/-- Two sessions with unset ids that list the same peers in the same order,
and whose participants carry the same id and ephemeral key for every listed
peer, both compute a session id, and the two ids are equal. -/
theorem compute_session_id_same_order (P : Primitives) (s1 s2 : np1secSession)
    (h1 : s1.session_id_is_set = false) (h2 : s2.session_id_is_set = false)
    (hne : s1.peers ≠ [])
    (hpeers : s1.peers = s2.peers)
    (hsame : ∀ n ∈ s1.peers,
      ((StdMap.find? s1.participants n).getD default).id =
        ((StdMap.find? s2.participants n).getD default).id ∧
      ((StdMap.find? s1.participants n).getD default).ephemeral_key =
        ((StdMap.find? s2.participants n).getD default).ephemeral_key) :
    ∃ r1 r2, compute_session_id P s1 = some (r1, true) ∧
      compute_session_id P s2 = some (r2, true) ∧
      r1.session_id = r2.session_id := by
  refine ⟨_, _, compute_session_id_of_peers P s1 h1 hne,
    compute_session_id_of_peers P s2 h2 (hpeers ▸ hne), ?_⟩
  show P.compute_session_hash _ = P.compute_session_hash _
  rw [← hpeers, session_id_input_congr P s1.participants s2.participants s1.peers hsame]

/-! ## The transcript chain -/

theorem StdMap.assign_of_keys_lt (m : StdMap Nat HashBlock) (k : Nat) (v : HashBlock)
    (hlt : ∀ e ∈ m, e.1 < k) : StdMap.assign m k v = m ++ [(k, v)] := by
  induction m with
  | nil => rfl
  | cons e rest ih =>
    obtain ⟨k', v'⟩ := e
    have hk : k' < k := hlt (k', v') (List.mem_cons_self _ _)
    have h1 : StdLess.less k k' = false := by
      show decide (k < k') = false
      simp only [decide_eq_false_iff_not, not_lt]
      exact Nat.le_of_lt hk
    have h2 : ¬ k' = k := Nat.ne_of_lt hk
    simp only [StdMap.assign, h1, h2, if_false, Bool.false_eq_true, List.cons_append]
    rw [ih (fun e he => hlt e (List.mem_cons_of_mem _ he))]

theorem StdMap.rbegin_append_singleton {K V : Type} (m : StdMap K V) (e : K × V) :
    StdMap.rbegin (m ++ [e]) = some e := by
  simp [StdMap.rbegin]

/-- C3: `add_message_to_transcript` stores no hash.  For every session,
message and message id the call has no defined result: the hash is written
through the pointer `hb`, which was never given a value, so the entry
`hash(H_prev || ":O3" || message)` that the chain should hold at `message_id`
afterwards is not stored. -/
theorem add_message_to_transcript_stores_nothing (P : Primitives) (s : np1secSession)
    (message : String) (message_id : Nat) :
    add_message_to_transcript P s message message_id = none := by
  simp only [add_message_to_transcript, uninitialised_pointer]
  cases StdMap.rbegin s.transcript_chain <;> rfl

/-- C4: no sequence of appends extends the chain.  The chain recomputed from
the session id has one hash for each plaintext, but the first call of
`add_message_to_transcript` already has no defined result, so for a sequence
of at least one message nothing is stored; only the empty sequence leaves a
session. -/
theorem transcript_chain_not_extended (P : Primitives) (s : np1secSession)
    (m : String × Nat) (rest : List (String × Nat)) :
    (recomputed_chain P s.session_id (m.1 :: rest.map Prod.fst)).length = rest.length + 1 ∧
    add_messages_to_transcript P s (m :: rest) = none ∧
    add_messages_to_transcript P s [] = some s := by
  refine ⟨?_, ?_, rfl⟩
  · have hlen : ∀ (l : List String) (h : HashBlock),
        (recomputed_chain P h l).length = l.length := by
      intro l
      induction l with
      | nil => intro h; rfl
      | cons x xs ih =>
        intro h
        simp only [recomputed_chain, List.length_cons, ih]
    rw [hlen]
    simp only [List.length_cons, List.length_map]
  · simp only [add_messages_to_transcript, add_message_to_transcript, uninitialised_pointer]
    cases StdMap.rbegin s.transcript_chain <;> rfl

/-! ## Receiving -/

/-- C5, evaluated: bob's message carries the chain hash `"stale"` while the
last hash of the session is `"sid"`; the `RoomAction` that `receive_handler`
returns still carries the user message "hello". -/
theorem receive_handler_returns_forked_message :
    retrieve_session sample_user_state "room" = some sample_session ∧
    StdMap.rbegin sample_session.transcript_chain = some (0, ⟨"sid"⟩) ∧
    (toy.parse_message "bob|stale|hello" sample_session.cryptic).transcript_chain_hash =
      ⟨"stale"⟩ ∧
    (receive_handler toy sample_user_state "room" "bob|stale|hello" 1).map (fun r => r.2) =
      some { first := none, user_message := "hello" } := by
  refine ⟨?_, ?_, ?_, ?_⟩ <;> decide

/-- C6: when the chain hash of an inbound message differs from the last hash
of the session's chain, `np1secSession::receive` returns the parsed message
and leaves the transcript chain, `awaiting_ack`, `acks_to_send` and the
session state as they were. -/
theorem receive_inconsistent_no_state_change (P : Primitives) (s : np1secSession)
    (raw_message : String) (k : Nat) (H_last : HashBlock)
    (hlast : StdMap.rbegin s.transcript_chain = some (k, H_last))
    (hfork : (P.parse_message raw_message s.cryptic).transcript_chain_hash ≠ H_last) :
    ∃ s', receive P s raw_message = some (s', P.parse_message raw_message s.cryptic) ∧
      s'.transcript_chain = s.transcript_chain ∧
      s'.awaiting_ack = s.awaiting_ack ∧
      s'.acks_to_send = s.acks_to_send ∧
      s'.my_state = s.my_state := by
  refine ⟨s, ?_, rfl, rfl, rfl, rfl⟩
  simp only [receive, hlast]
  rw [if_neg (fun h => hfork h.symm)]

theorem receive_inconsistent_no_state_change_witness :
    ∃ s', receive toy sample_session "bob|stale|hello" =
        some (s', toy.parse_message "bob|stale|hello" sample_session.cryptic) ∧
      s'.transcript_chain = sample_session.transcript_chain ∧
      s'.awaiting_ack = sample_session.awaiting_ack ∧
      s'.acks_to_send = sample_session.acks_to_send ∧
      s'.my_state = sample_session.my_state :=
  receive_inconsistent_no_state_change toy sample_session "bob|stale|hello" 0 ⟨"sid"⟩
    (by decide) (by decide)

theorem StdMap.find?_erase_self {K V : Type} [DecidableEq K] (m : StdMap K V) (k : K) :
    StdMap.find? (StdMap.erase m k) k = none := by
  unfold StdMap.erase
  induction m with
  | nil => rfl
  | cons e rest ih =>
    obtain ⟨k', v'⟩ := e
    simp only [List.filter_cons]
    split_ifs with hk
    · have hne : ¬ k' = k := by simpa using hk
      simp only [StdMap.find?, hne, if_false]
      exact ih
    · exact ih

/-- C7: on a consistent inbound message `receive` returns nothing.  When the
chain hash of the message equals the last hash of the session's chain,
`receive` calls `add_message_to_transcript`, which writes through the
uninitialised `hb`; the calls of `stop_timer_receive` and
`start_receive_ack_timer` behind it are not reached, so no ack-send timer is
armed. -/
theorem receive_consistent_returns_nothing (P : Primitives) (s : np1secSession)
    (raw_message : String) (k : Nat) (H_last : HashBlock)
    (hlast : StdMap.rbegin s.transcript_chain = some (k, H_last))
    (hcons : (P.parse_message raw_message s.cryptic).transcript_chain_hash = H_last) :
    receive P s raw_message = none := by
  simp only [receive, hlast, hcons, if_true, add_message_to_transcript,
    uninitialised_pointer]

theorem receive_consistent_returns_nothing_witness :
    StdMap.rbegin sample_session.transcript_chain = some (0, ⟨"sid"⟩) ∧
    (toy.parse_message "bob|sid|hello" sample_session.cryptic).transcript_chain_hash =
      ⟨"sid"⟩ ∧
    receive toy sample_session "bob|sid|hello" = none :=
  ⟨by decide, by decide,
    receive_consistent_returns_nothing toy sample_session "bob|sid|hello" 0 ⟨"sid"⟩
      (by decide) (by decide)⟩

/-- The two timer calls of `receive`, taken by themselves: after
`stop_timer_receive` and `start_receive_ack_timer` for a sender, `acks_to_send`
holds a `cb_send_ack` event for the sender, and the sender is again a key of
`awaiting_ack`, mapped to a null event by the `awaiting_ack[sender_id]` that
`start_receive_ack_timer` hands to `event_add`. -/
theorem receive_timer_calls (s : np1secSession) (sender_id : String) :
    StdMap.find?
        (start_receive_ack_timer (stop_timer_receive s sender_id) sender_id).awaiting_ack
        sender_id = some none ∧
    StdMap.find?
        (start_receive_ack_timer (stop_timer_receive s sender_id) sender_id).acks_to_send
        sender_id = some (some ⟨TimerCallback.cb_send_ack⟩) := by
  constructor
  · simp only [start_receive_ack_timer, stop_timer_receive, StdMap.index,
      StdMap.find?_erase_self]
    exact StdMap.find?_assign_self _ _ _
  · exact StdMap.find?_assign_self _ _ _

/-- Whatever the chain hash of the inbound message, the `RoomAction` of
`receive_handler` carries the user message of the parsed message. -/
theorem receive_handler_user_message (P : Primitives) (us : np1secUserState)
    (room_name np1sec_message : String) (message_id : Nat) (r : np1secUserState × RoomAction)
    (cur_session : np1secSession)
    (hroom : retrieve_session us room_name = some cur_session)
    (hret : receive_handler P us room_name np1sec_message message_id = some r) :
    r.2.user_message = (P.parse_message np1sec_message cur_session.cryptic).user_message := by
  simp only [receive_handler, hroom] at hret
  cases hrecv : receive P cur_session np1sec_message with
  | none => simp [hrecv] at hret
  | some x =>
    simp only [hrecv, Option.some.injEq] at hret
    subst hret
    simp only [receive] at hrecv
    cases hlast : StdMap.rbegin cur_session.transcript_chain with
    | none => simp [hlast] at hrecv
    | some last =>
      simp only [hlast, add_message_to_transcript, uninitialised_pointer] at hrecv
      split_ifs at hrecv
      simp only [Option.some.injEq] at hrecv
      rw [← hrecv]

/-! ## Sending -/

theorem StdMap.foldl_erase_all {K V : Type} [DecidableEq K] (l : List (K × V)) :
    ∀ m : StdMap K V, (∀ e ∈ m, e.1 ∈ l.map Prod.fst) →
      List.foldl (fun acc it => StdMap.erase acc it.1) m l = [] := by
  induction l with
  | nil =>
    intro m hm
    simp only [List.foldl_nil]
    exact List.eq_nil_iff_forall_not_mem.mpr (fun _ he => by simpa using hm _ he)
  | cons x rest ih =>
    intro m hm
    simp only [List.foldl_cons]
    apply ih
    intro e he
    simp only [StdMap.erase, List.mem_filter, decide_eq_true_eq] at he
    have h := hm e he.1
    simp only [List.map_cons, List.mem_cons] at h
    rcases h with h | h
    · exact absurd h he.2
    · exact h

theorem StdMap.find?_foldl_assign {K V : Type} [DecidableEq K] [StdLess K]
    (v : V) (p : K) (l : List K) :
    ∀ m : StdMap K V, (p ∈ l ∨ StdMap.find? m p = some v) →
      StdMap.find? (List.foldl (fun acc it => StdMap.assign acc it v) m l) p = some v := by
  induction l with
  | nil =>
    intro m h
    rcases h with h | h
    · exact absurd h (List.not_mem_nil p)
    · exact h
  | cons x rest ih =>
    intro m h
    simp only [List.foldl_cons]
    apply ih
    by_cases hpx : p = x
    · right
      rw [hpx]
      exact StdMap.find?_assign_self m x v
    · rcases h with h | h
      · left
        rcases List.mem_cons.mp h with h | h
        · exact absurd h hpx
        · exact h
      · right
        rw [StdMap.find?_assign_ne m x p v hpx]
        exact h

/-- The construction of `outbound` in `send` yields nothing, whatever the
session. -/
theorem send_outbound_none (user_id : String) (s : np1secSession) (message : String)
    (message_type : np1secMessageType) :
    send_outbound user_id s message message_type = none := by
  simp only [send_outbound, string_from_null]
  cases StdMap.rbegin s.transcript_chain <;> rfl

/-- C8: `send` returns nothing, for `USER_MESSAGE` and for every other type:
`std::string meta_load = NULL;` stands before `stop_timer_send()` and
`start_ack_timers()`, so no ack-await timer is armed and no pending ack-send
timer is cleared.  The loop of `stop_timer_send` by itself is defined only on
an empty `acks_to_send`. -/
theorem send_returns_nothing (user_id : String) (s : np1secSession) (message : String)
    (message_type : np1secMessageType) :
    send user_id s message message_type = none ∧
    (s.acks_to_send ≠ [] → stop_timer_send s = none) ∧
    (s.acks_to_send = [] → stop_timer_send s = some s) := by
  refine ⟨?_, ?_, ?_⟩
  · simp only [send, send_outbound_none]
  · intro h
    simp only [stop_timer_send]
    cases hacks : s.acks_to_send with
    | nil => exact absurd hacks h
    | cons _ _ => rfl
  · intro h
    simp only [stop_timer_send, h]

theorem send_returns_nothing_witness :
    sample_session.acks_to_send = [("bob", some ⟨TimerCallback.cb_send_ack⟩)] ∧
    (send "alice" sample_session "hello" np1secMessageType.USER_MESSAGE = none ∧
      (sample_session.acks_to_send ≠ [] → stop_timer_send sample_session = none) ∧
      (sample_session.acks_to_send = [] →
        stop_timer_send sample_session = some sample_session)) :=
  ⟨by decide,
    send_returns_nothing "alice" sample_session "hello" np1secMessageType.USER_MESSAGE⟩

/-- C9: `send_handler` hands no frame to `send_bare`.  For every user state,
room and plaintext the call returns nothing: without a session it stops at
`assert(false)`, and with one `np1secSession::send` stops at
`std::string meta_load = NULL;` before `outbound` is built; the one call of
`send_bare` in `send` is commented out. -/
theorem send_handler_returns_nothing (us : np1secUserState)
    (room_name plain_message : String) :
    send_handler us room_name plain_message = none := by
  simp only [send_handler]
  cases retrieve_session us room_name with
  | none => rfl
  | some cur_session => simp only [send, send_outbound_none]

/-! ## Authentication of a participant -/

/-- C10: with `p2p_key` the secret that `triple_ed_dh` yields,
`be_authenticated(authenticator_id, token)` returns normally with
`authenticated = true` if and only if the token equals
`hash(p2p_key || authenticator_id)`; for any other token it throws
`np1secAuthenticationException` and `authenticated` is what it was. -/
theorem be_authenticated_spec (P : Primitives) (p : Participant)
    (authenticator_id : String) (auth_token : HashBlock)
    (thread_user_id_key : np1secAsymmetricKey) (thread_user_crypto : Cryptic)
    (p2p_key : HashBlock)
    (hdh : P.triple_ed_dh thread_user_crypto p.ephemeral_key p.long_term_pub_key
        thread_user_id_key
        (sort_by_long_term_pub_key P p.long_term_pub_key
          (P.public_key_of thread_user_id_key)) = some p2p_key) :
    (((be_authenticated P p authenticator_id auth_token thread_user_id_key
          thread_user_crypto).2 = Except.ok () ∧
        (be_authenticated P p authenticator_id auth_token thread_user_id_key
          thread_user_crypto).1.authenticated = true) ↔
      auth_token = P.hash (hash_to_string_buff p2p_key ++ authenticator_id)) ∧
    (auth_token ≠ P.hash (hash_to_string_buff p2p_key ++ authenticator_id) →
      (be_authenticated P p authenticator_id auth_token thread_user_id_key
          thread_user_crypto).2 =
        Except.error np1secException.np1secAuthenticationException ∧
      (be_authenticated P p authenticator_id auth_token thread_user_id_key
          thread_user_crypto).1.authenticated = p.authenticated) := by
  by_cases htok : auth_token = P.hash (hash_to_string_buff p2p_key ++ authenticator_id)
  · subst htok
    have hcmp : compare_hash (P.hash (hash_to_string_buff p2p_key ++ authenticator_id))
        (P.hash (hash_to_string_buff p2p_key ++ authenticator_id)) = false := by
      simp [compare_hash]
    simp [be_authenticated, compute_p2p_private, hdh, hcmp]
  · have hcmp : compare_hash (P.hash (hash_to_string_buff p2p_key ++ authenticator_id))
        auth_token = true := by
      simp only [compare_hash, decide_eq_true_eq]
      exact fun h => htok h.symm
    simp [be_authenticated, compute_p2p_private, hdh, hcmp, htok]

theorem be_authenticated_spec_witness :
    (((be_authenticated toy alice "bob" ⟨"EAKbob"⟩ (some "K") ⟨none, none, none⟩).2 =
          Except.ok () ∧
        (be_authenticated toy alice "bob" ⟨"EAKbob"⟩ (some "K")
          ⟨none, none, none⟩).1.authenticated = true) ↔
      (⟨"EAKbob"⟩ : HashBlock) = toy.hash (hash_to_string_buff ⟨"EAK"⟩ ++ "bob")) ∧
    ((⟨"EAKbob"⟩ : HashBlock) ≠ toy.hash (hash_to_string_buff ⟨"EAK"⟩ ++ "bob") →
      (be_authenticated toy alice "bob" ⟨"EAKbob"⟩ (some "K") ⟨none, none, none⟩).2 =
        Except.error np1secException.np1secAuthenticationException ∧
      (be_authenticated toy alice "bob" ⟨"EAKbob"⟩ (some "K")
        ⟨none, none, none⟩).1.authenticated = alice.authenticated) :=
  be_authenticated_spec toy alice "bob" ⟨"EAKbob"⟩ (some "K") ⟨none, none, none⟩ ⟨"EAK"⟩
    (by decide)

/-! ## Authentication tokens -/

theorem string_less_iff (a b : String) : string_less a b = true ↔ a < b := by
  simp only [string_less, decide_eq_true_eq]
  exact String.lt_iff_toList_lt.symm

theorem string_less_of_ne (a b : String) (h : a ≠ b) :
    string_less a b = !string_less b a := by
  have h1 := string_less_iff a b
  have h2 := string_less_iff b a
  rcases lt_trichotomy a b with hlt | heq | hgt
  · have e1 : string_less a b = true := h1.mpr hlt
    have e2 : string_less b a = false := by
      cases hb : string_less b a
      · rfl
      · exact absurd (h2.mp hb) (lt_asymm hlt)
    rw [e1, e2]
    rfl
  · exact absurd heq h
  · have e2 : string_less b a = true := h2.mpr hgt
    have e1 : string_less a b = false := by
      cases hb : string_less a b
      · rfl
      · exact absurd (h1.mp hb) (lt_asymm hgt)
    rw [e1, e2]
    rfl

theorem string_append_inj (a b x y : String) (hlen : a.length = b.length)
    (h : a ++ x = b ++ y) : a = b ∧ x = y := by
  have hd := congrArg String.data h
  simp only [String.data_append] at hd
  have hparts := List.append_inj hd hlen
  exact ⟨String.ext hparts.1, String.ext hparts.2⟩

theorem authenticate_to_eq (P : Primitives) (p : Participant)
    (thread_user_id_key : np1secAsymmetricKey) (thread_user_crypto : Cryptic)
    (p2p_key : HashBlock)
    (hdh : P.triple_ed_dh thread_user_crypto p.ephemeral_key p.long_term_pub_key
        thread_user_id_key
        (sort_by_long_term_pub_key P p.long_term_pub_key
          (P.public_key_of thread_user_id_key)) = some p2p_key) :
    authenticate_to P p thread_user_id_key thread_user_crypto =
      some ({ p with p2p_key := p2p_key },
        P.hash (hash_to_string_buff p2p_key ++ P.id_to_stringbuffer p.id)) := by
  simp [authenticate_to, compute_p2p_private, hdh]

theorem be_authenticated_ok_iff (P : Primitives) (p : Participant)
    (authenticator_id : String) (auth_token : HashBlock)
    (thread_user_id_key : np1secAsymmetricKey) (thread_user_crypto : Cryptic)
    (p2p_key : HashBlock)
    (hdh : P.triple_ed_dh thread_user_crypto p.ephemeral_key p.long_term_pub_key
        thread_user_id_key
        (sort_by_long_term_pub_key P p.long_term_pub_key
          (P.public_key_of thread_user_id_key)) = some p2p_key) :
    (be_authenticated P p authenticator_id auth_token thread_user_id_key
        thread_user_crypto).2 = Except.ok () ↔
      auth_token = P.hash (hash_to_string_buff p2p_key ++ authenticator_id) := by
  by_cases htok : auth_token = P.hash (hash_to_string_buff p2p_key ++ authenticator_id)
  · subst htok
    have hcmp : compare_hash (P.hash (hash_to_string_buff p2p_key ++ authenticator_id))
        (P.hash (hash_to_string_buff p2p_key ++ authenticator_id)) = false := by
      simp [compare_hash]
    simp [be_authenticated, compute_p2p_private, hdh, hcmp]
  · have hcmp : compare_hash (P.hash (hash_to_string_buff p2p_key ++ authenticator_id))
        auth_token = true := by
      simp only [compare_hash, decide_eq_true_eq]
      exact fun h => htok h.symm
    simp [be_authenticated, compute_p2p_private, hdh, hcmp, htok]

/-- C11, as stated, fails: alice, the local user, calls `authenticate_to` on
her record of bob; the token is the hash of the pairwise secret followed by
"bob", the id of the peer, and differs from the hash of the secret followed
by "alice", the id of the local user. -/
theorem authenticate_to_hashes_peer_id :
    authenticate_to toy_dh bob_lt (some "LA") alice_crypto =
      some ({ bob_lt with p2p_key := ⟨"EALAEBLB"⟩ }, ⟨"EALAEBLBbob"⟩) ∧
    toy_dh.hash (hash_to_string_buff ⟨"EALAEBLB"⟩ ++ toy_dh.id_to_stringbuffer bob_lt.id) =
      ⟨"EALAEBLBbob"⟩ ∧
    toy_dh.hash (hash_to_string_buff ⟨"EALAEBLB"⟩ ++ toy_dh.id_to_stringbuffer alice_lt.id) ≠
      ⟨"EALAEBLBbob"⟩ := by
  refine ⟨?_, ?_, ?_⟩ <;> decide

/-- C11, amended: the token that `authenticate_to` emits for a peer equals
`hash(p2p_key || id)`, where `p2p_key` is the pairwise secret with that peer
and `id` is the string form of the id of the participant the method is called
on, that is of the peer. -/
theorem authenticate_to_token (P : Primitives) (p : Participant)
    (thread_user_id_key : np1secAsymmetricKey) (thread_user_crypto : Cryptic)
    (p2p_key : HashBlock)
    (hdh : P.triple_ed_dh thread_user_crypto p.ephemeral_key p.long_term_pub_key
        thread_user_id_key
        (sort_by_long_term_pub_key P p.long_term_pub_key
          (P.public_key_of thread_user_id_key)) = some p2p_key) :
    ∃ p', authenticate_to P p thread_user_id_key thread_user_crypto =
        some (p', P.hash (hash_to_string_buff p2p_key ++ P.id_to_stringbuffer p.id)) ∧
      p'.p2p_key = p2p_key :=
  ⟨_, authenticate_to_eq P p thread_user_id_key thread_user_crypto p2p_key hdh, rfl⟩

theorem authenticate_to_token_witness :
    ∃ p', authenticate_to toy_dh bob_lt (some "LA") alice_crypto =
        some (p', toy_dh.hash (hash_to_string_buff ⟨"EALAEBLB"⟩ ++
          toy_dh.id_to_stringbuffer bob_lt.id)) ∧
      p'.p2p_key = ⟨"EALAEBLB"⟩ :=
  authenticate_to_token toy_dh bob_lt (some "LA") alice_crypto ⟨"EALAEBLB"⟩ (by decide)

/-- C12, evaluated: `authenticate_to` on bob leaves `authed_to` false, and
the loop of `joiner_send_auth_and_share`, run a second time on the
participants that its first run left, builds the same batch again, with a
second token for bob. -/
theorem authenticate_to_leaves_authed_to :
    bob_lt.authed_to = false ∧
    (authenticate_to toy_dh bob_lt (some "LA") alice_crypto).map (fun r => r.1.authed_to) =
      some false ∧
    (joiner_auth_loop toy_dh toy_session alice_crypto joiner_session.peers 0
        joiner_session.participants "").map Prod.snd =
      some "0EALAEALAalice1EALAEBLBbob" ∧
    ((joiner_auth_loop toy_dh toy_session alice_crypto joiner_session.peers 0
        joiner_session.participants "").bind
      (fun r => joiner_auth_loop toy_dh toy_session alice_crypto joiner_session.peers 0
        r.1 "")).map Prod.snd =
      some "0EALAEALAalice1EALAEBLBbob" ∧
    ((joiner_send_auth_and_share toy_dh toy_session joiner_session).bind
      (fun r => StdMap.find? r.1.participants "bob")).map (fun p => p.authed_to) =
      some false := by
  refine ⟨?_, ?_, ?_, ?_, ?_⟩ <;> decide

/-- C13, as stated, fails: alice and bob derive the same pairwise secret, bob
calls `be_authenticated` with the id of alice on the token that alice produced
with `authenticate_to`, and the call throws. -/
theorem be_authenticated_with_sender_id_throws :
    (authenticate_to toy_dh bob_lt (some "LA") alice_crypto).map
      (fun r => (r.1.p2p_key, r.2)) = some (⟨"EALAEBLB"⟩, ⟨"EALAEBLBbob"⟩) ∧
    (compute_p2p_private toy_dh alice_lt (some "LB") bob_crypto).map (fun p => p.p2p_key) =
      some ⟨"EALAEBLB"⟩ ∧
    (be_authenticated toy_dh alice_lt (toy_dh.id_to_stringbuffer alice_lt.id)
        ⟨"EALAEBLBbob"⟩ (some "LB") bob_crypto).2 =
      Except.error np1secException.np1secAuthenticationException ∧
    (be_authenticated toy_dh alice_lt (toy_dh.id_to_stringbuffer bob_lt.id)
        ⟨"EALAEBLBbob"⟩ (some "LB") bob_crypto).2 = Except.ok () := by
  refine ⟨by decide, by decide, by rfl, by rfl⟩

/-- C13, amended: with an injective hash and pairwise secrets of one length,
A's `authenticate_to` on its record of B yields a token `t`, and B's
`be_authenticated(id, t)` succeeds if and only if the secret A used equals the
secret B computes and `id` is the string that A hashed into the token, the id
of A's record of B. -/
theorem auth_token_symmetry (P : Primitives) (b_at_a a_at_b : Participant)
    (key_a key_b : np1secAsymmetricKey) (crypto_a crypto_b : Cryptic)
    (authenticator_id : String) (p2p_a p2p_b : HashBlock)
    (hinj : Function.Injective P.hash)
    (ha : P.triple_ed_dh crypto_a b_at_a.ephemeral_key b_at_a.long_term_pub_key key_a
        (sort_by_long_term_pub_key P b_at_a.long_term_pub_key (P.public_key_of key_a)) =
      some p2p_a)
    (hb : P.triple_ed_dh crypto_b a_at_b.ephemeral_key a_at_b.long_term_pub_key key_b
        (sort_by_long_term_pub_key P a_at_b.long_term_pub_key (P.public_key_of key_b)) =
      some p2p_b)
    (hlen : p2p_a.buff.length = p2p_b.buff.length) :
    ∃ b' t, authenticate_to P b_at_a key_a crypto_a = some (b', t) ∧
      ((be_authenticated P a_at_b authenticator_id t key_b crypto_b).2 = Except.ok () ↔
        p2p_a = p2p_b ∧ authenticator_id = P.id_to_stringbuffer b_at_a.id) := by
  refine ⟨_, _, authenticate_to_eq P b_at_a key_a crypto_a p2p_a ha, ?_⟩
  rw [be_authenticated_ok_iff P a_at_b authenticator_id _ key_b crypto_b p2p_b hb]
  constructor
  · intro h
    have hparts := string_append_inj _ _ _ _ hlen (hinj h)
    refine ⟨?_, hparts.2.symm⟩
    cases p2p_a
    cases p2p_b
    simp only [hash_to_string_buff] at hparts
    rw [hparts.1]
  · rintro ⟨hk, hid⟩
    rw [hk, hid]

theorem auth_token_symmetry_witness :
    ∃ b' t, authenticate_to toy_dh bob_lt (some "LA") alice_crypto = some (b', t) ∧
      ((be_authenticated toy_dh alice_lt "bob" t (some "LB") bob_crypto).2 = Except.ok () ↔
        (⟨"EALAEBLB"⟩ : HashBlock) = ⟨"EALAEBLB"⟩ ∧
          "bob" = toy_dh.id_to_stringbuffer bob_lt.id) :=
  auth_token_symmetry toy_dh bob_lt alice_lt (some "LA") (some "LB") alice_crypto bob_crypto
    "bob" ⟨"EALAEBLB"⟩ ⟨"EALAEBLB"⟩
    (fun a b h => by
      have h1 : (toy_dh.hash a).buff = (toy_dh.hash b).buff := congrArg HashBlock.buff h
      exact h1)
    (by decide) (by decide) (by decide)

/-- C14: `compute_p2p_private` hands `triple_ed_dh` the flag `peer_is_first`
that says whether the bytes of the peer's long-term public key are
lexicographically less than those of the thread user's; and when the two
parties hold each other's long-term public keys and the bytes differ, exactly
one of the two flags is true. -/
theorem triple_dh_ordering (P : Primitives) (b_at_a a_at_b : Participant)
    (key_a key_b : np1secAsymmetricKey) (crypto_a : Cryptic)
    (hkey_a : a_at_b.long_term_pub_key = P.public_key_of key_a)
    (hkey_b : b_at_a.long_term_pub_key = P.public_key_of key_b)
    (hne : P.public_key_to_stringbuff (P.public_key_of key_a) ≠
      P.public_key_to_stringbuff (P.public_key_of key_b)) :
    compute_p2p_private P b_at_a key_a crypto_a =
      (P.triple_ed_dh crypto_a b_at_a.ephemeral_key b_at_a.long_term_pub_key key_a
        (decide (P.public_key_to_stringbuff b_at_a.long_term_pub_key <
          P.public_key_to_stringbuff (P.public_key_of key_a)))).map
        (fun k => { b_at_a with p2p_key := k }) ∧
    sort_by_long_term_pub_key P b_at_a.long_term_pub_key (P.public_key_of key_a) =
      !sort_by_long_term_pub_key P a_at_b.long_term_pub_key (P.public_key_of key_b) := by
  constructor
  · have hflag : sort_by_long_term_pub_key P b_at_a.long_term_pub_key (P.public_key_of key_a) =
        decide (P.public_key_to_stringbuff b_at_a.long_term_pub_key <
          P.public_key_to_stringbuff (P.public_key_of key_a)) := by
      rw [Bool.eq_iff_iff]
      simp only [sort_by_long_term_pub_key, decide_eq_true_eq]
      exact string_less_iff _ _
    simp only [compute_p2p_private, hflag]
    cases P.triple_ed_dh crypto_a b_at_a.ephemeral_key b_at_a.long_term_pub_key key_a
        (decide (P.public_key_to_stringbuff b_at_a.long_term_pub_key <
          P.public_key_to_stringbuff (P.public_key_of key_a))) <;> rfl
  · simp only [sort_by_long_term_pub_key, hkey_a, hkey_b]
    exact string_less_of_ne _ _ (fun h => hne h.symm)

theorem triple_dh_ordering_witness :
    compute_p2p_private toy_dh bob_lt (some "LA") alice_crypto =
      (toy_dh.triple_ed_dh alice_crypto bob_lt.ephemeral_key bob_lt.long_term_pub_key
        (some "LA")
        (decide (toy_dh.public_key_to_stringbuff bob_lt.long_term_pub_key <
          toy_dh.public_key_to_stringbuff (toy_dh.public_key_of (some "LA"))))).map
        (fun k => { bob_lt with p2p_key := k }) ∧
    sort_by_long_term_pub_key toy_dh bob_lt.long_term_pub_key
        (toy_dh.public_key_of (some "LA")) =
      !sort_by_long_term_pub_key toy_dh alice_lt.long_term_pub_key
        (toy_dh.public_key_of (some "LB")) :=
  triple_dh_ordering toy_dh bob_lt alice_lt (some "LA") (some "LB") alice_crypto
    (by decide) (by decide) (by decide)

/-! ## The group-key gate and authentication failure -/

/-- C15, evaluated: alice and bob are not authenticated and have contributed
no share, and bob sends `PARTICIPANT_INFO`.  The gate
`if (everybody_authenticated_and_contributed)` names the function without
calling it, so `group_dec()` decides alone: when it refuses, the handler
returns `DEAD`, and when it succeeds, `SESSION_CONFIRMATION` is sent and
`GROUP_KEY_GENERATED` returned.  The current state is returned in neither
case. -/
theorem confirm_auth_gate_not_called :
    everybody_authenticated_and_contributed incumbent_session = false ∧
    incumbent_session.my_state = np1secSessionState.REPLIED_TO_NEW_JOIN ∧
    (confirm_auth_add_update_share_repo toy_dh toy_session incumbent_session
      participant_info_from_bob).state = np1secSessionState.DEAD ∧
    (confirm_auth_add_update_share_repo toy_dh toy_session_dec incumbent_session
      participant_info_from_bob).state = np1secSessionState.GROUP_KEY_GENERATED ∧
    ((confirm_auth_add_update_share_repo toy_dh toy_session_dec incumbent_session
      participant_info_from_bob).sent.map (fun m => m.message_type)) =
      [np1secMessageType.SESSION_CONFIRMATION] := by
  refine ⟨?_, ?_, ?_, ?_, ?_⟩ <;> decide

/-- Whatever the participants hold, `confirm_auth_add_update_share_repo` on a
message other than `JOINER_AUTH` returns `GROUP_KEY_GENERATED` or `DEAD`, as
`group_dec()` says. -/
theorem confirm_auth_other_message (P : Primitives) (Q : SessionPrimitives)
    (s : np1secSession) (received_message : np1secMessage)
    (htype : received_message.message_type ≠ np1secMessageType.JOINER_AUTH) :
    (confirm_auth_add_update_share_repo P Q s received_message).state =
      if Q.group_dec s then np1secSessionState.GROUP_KEY_GENERATED
      else np1secSessionState.DEAD := by
  simp only [confirm_auth_add_update_share_repo, htype, if_false, confirm_auth_group_key,
    function_name_as_condition, if_true]
  split_ifs <;> rfl

/-- In `auth_and_reshare` on a session whose id is set, an unknown sender or a
token that does not verify gives `DEAD`, and the key share of the sender is
not stored. -/
theorem auth_and_reshare_failure (P : Primitives) (Q : SessionPrimitives)
    (s : np1secSession) (received_message : np1secMessage)
    (hset : s.session_id_is_set = true)
    (hfail : ∀ p, StdMap.find? s.participants received_message.sender_id = some p →
      (authenticate P p s.myself.id received_message.kc Q.thread_user_id_key
        s.cryptic).2 = false) :
    ∃ r, auth_and_reshare P Q s received_message = some r ∧
      r.state = np1secSessionState.DEAD ∧
      ∀ p, StdMap.find? r.session.participants received_message.sender_id = some p →
        ∃ p0, StdMap.find? s.participants received_message.sender_id = some p0 ∧
          p = (authenticate P p0 s.myself.id received_message.kc Q.thread_user_id_key
            s.cryptic).1 := by
  have hrun : auth_and_reshare P Q s received_message =
      some (auth_and_reshare_checks P Q s [] received_message) := by
    simp only [auth_and_reshare, hset, if_true]
  refine ⟨_, hrun, ?_, ?_⟩
  · simp only [auth_and_reshare_checks]
    cases hfind : StdMap.find? s.participants received_message.sender_id with
    | none => rfl
    | some p0 => simp only [hfail p0 hfind, Bool.false_eq_true, if_false]
  · intro p hp
    simp only [auth_and_reshare_checks] at hp
    cases hfind : StdMap.find? s.participants received_message.sender_id with
    | none =>
      simp only [hfind] at hp
      cases hp
    | some p0 =>
      simp only [hfind, hfail p0 hfind, Bool.false_eq_true, if_false] at hp
      rw [StdMap.find?_assign_self] at hp
      exact ⟨p0, rfl, (Option.some.inj hp).symm⟩

theorem confirmation_bits_kept_of_eq (a b : np1secSession)
    (h : b.confirmed_peers = a.confirmed_peers) : confirmation_bits_kept a b := by
  intro j hj
  rw [h]
  exact hj

theorem getElem?_set_true (l : List Bool) (i j : Nat) (h : l[j]? = some true) :
    (l.set i true)[j]? = some true := by
  by_cases hij : i = j
  · subst hij
    have hlt : i < l.length := by
      by_contra hge
      rw [List.getElem?_eq_none (by omega)] at h
      cases h
    rw [List.getElem?_set, if_pos rfl, if_pos hlt]
  · rw [List.getElem?_set_ne hij]
    exact h

theorem mark_confirmed_some (s s1 : np1secSession) (sender_id : String)
    (h : mark_confirmed s sender_id = some s1) :
    ∃ p, StdMap.find? s.participants sender_id = some p ∧
      p.in_session_index < s.confirmed_peers.length ∧
      s1 = { s with confirmed_peers := s.confirmed_peers.set p.in_session_index true } := by
  simp only [mark_confirmed] at h
  cases hfind : StdMap.find? s.participants sender_id with
  | none =>
    simp only [hfind] at h
    cases h
  | some p =>
    simp only [hfind] at h
    split_ifs at h with hidx
    exact ⟨p, rfl, hidx, (Option.some.inj h).symm⟩

theorem mark_confirmed_state (s s1 : np1secSession) (sender_id : String)
    (h : mark_confirmed s sender_id = some s1) : s1.my_state = s.my_state := by
  obtain ⟨p, _, _, hs1⟩ := mark_confirmed_some s s1 sender_id h
  rw [hs1]

theorem mark_confirmed_kept (s s1 : np1secSession) (sender_id : String)
    (h : mark_confirmed s sender_id = some s1) : confirmation_bits_kept s s1 := by
  obtain ⟨p, _, _, hs1⟩ := mark_confirmed_some s s1 sender_id h
  intro j hj
  rw [hs1]
  exact getElem?_set_true _ _ _ hj

/-- The loop of `everybody_confirmed` never ends with true. -/
theorem everybody_confirmed_loop_ne_true (bits : List Bool) :
    everybody_confirmed_loop bits ≠ some true := by
  induction bits with
  | nil => simp [everybody_confirmed_loop]
  | cons it rest ih =>
    cases it
    · simp [everybody_confirmed_loop]
    · simpa [everybody_confirmed_loop] using ih

theorem confirmation_bits_kept_trans (a b c : np1secSession)
    (hab : confirmation_bits_kept a b) (hbc : confirmation_bits_kept b c) :
    confirmation_bits_kept a c :=
  fun j hj => hbc j (hab j hj)

theorem compute_session_id_keeps (P : Primitives) (s : np1secSession)
    (r : np1secSession × Bool) (h : compute_session_id P s = some r) :
    r.1.confirmed_peers = s.confirmed_peers ∧ r.1.my_state = s.my_state := by
  simp only [compute_session_id] at h
  split_ifs at h <;> simp only [Option.some.injEq] at h <;> subst h <;> exact ⟨rfl, rfl⟩

theorem setup_session_view_keeps (P : Primitives) (s : np1secSession)
    (m : np1secMessage) (r : np1secSession × Bool) (h : setup_session_view P s m = some r) :
    r.1.confirmed_peers = s.confirmed_peers ∧ r.1.my_state = s.my_state := by
  simp only [setup_session_view, List.take_zero, List.foldl_nil] at h
  split_ifs at h
  exact compute_session_id_keeps P _ r h

theorem joiner_send_auth_and_share_keeps (P : Primitives) (Q : SessionPrimitives)
    (s : np1secSession) (r : np1secSession × List SentMessage × Bool)
    (h : joiner_send_auth_and_share P Q s = some r) :
    r.1.confirmed_peers = s.confirmed_peers ∧ r.1.my_state = s.my_state := by
  simp only [joiner_send_auth_and_share] at h
  split_ifs at h
  cases henc : Q.group_enc s with
  | none =>
    simp only [henc, Option.some.injEq] at h
    subst h
    exact ⟨rfl, rfl⟩
  | some share =>
    simp only [henc] at h
    cases hloop : joiner_auth_loop P Q s.cryptic s.peers 0 s.participants "" with
    | none => simp [hloop] at h
    | some x =>
      simp only [hloop, Option.some.injEq] at h
      subst h
      exact ⟨rfl, rfl⟩

theorem auth_and_reshare_checks_keeps (P : Primitives) (Q : SessionPrimitives)
    (s : np1secSession) (sent : List SentMessage) (m : np1secMessage) :
    (auth_and_reshare_checks P Q s sent m).session.confirmed_peers = s.confirmed_peers ∧
    ((auth_and_reshare_checks P Q s sent m).state = np1secSessionState.DEAD ∨
      (auth_and_reshare_checks P Q s sent m).state = s.my_state) := by
  simp only [auth_and_reshare_checks]
  cases StdMap.find? s.participants m.sender_id with
  | none => exact ⟨rfl, Or.inl rfl⟩
  | some p =>
    simp only
    split_ifs
    · exact ⟨rfl, Or.inr rfl⟩
    · exact ⟨rfl, Or.inl rfl⟩

theorem auth_and_reshare_keeps (P : Primitives) (Q : SessionPrimitives)
    (s : np1secSession) (m : np1secMessage) (r : HandlerResult)
    (h : auth_and_reshare P Q s m = some r) :
    r.session.confirmed_peers = s.confirmed_peers ∧
    (r.state = np1secSessionState.DEAD ∨ r.state = s.my_state) := by
  simp only [auth_and_reshare] at h
  split_ifs at h with hset
  · simp only [Option.some.injEq] at h
    subst h
    exact auth_and_reshare_checks_keeps P Q s [] m
  · cases hview : setup_session_view P s m with
    | none => simp [hview] at h
    | some v =>
      obtain ⟨hv1, hv2⟩ := setup_session_view_keeps P s m v hview
      simp only [hview] at h
      split_ifs at h with hflag
      · cases hj : joiner_send_auth_and_share P Q v.1 with
        | none => simp [hj] at h
        | some j =>
          obtain ⟨hj1, hj2⟩ := joiner_send_auth_and_share_keeps P Q v.1 j hj
          simp only [hj, Option.some.injEq] at h
          subst h
          obtain ⟨hc1, hc2⟩ := auth_and_reshare_checks_keeps P Q j.1 j.2.1 m
          refine ⟨by rw [hc1, hj1, hv1], ?_⟩
          rcases hc2 with hc2 | hc2
          · exact Or.inl hc2
          · exact Or.inr (by rw [hc2, hj2, hv2])
      · simp only [Option.some.injEq] at h
        subst h
        exact ⟨hv1, Or.inl rfl⟩

theorem state_handler_ok (s s1 : np1secSession) (m : np1secMessage)
    (h : state_handler s m = Except.ok s1) : s1 = s := by
  simp only [state_handler] at h
  cases hstate : s.my_state <;> simp only [hstate] at h <;> cases h <;> rfl

theorem confirm_auth_keeps (P : Primitives) (Q : SessionPrimitives) (s : np1secSession)
    (m : np1secMessage) :
    (confirm_auth_add_update_share_repo P Q s m).session.confirmed_peers =
      s.confirmed_peers := by
  simp only [confirm_auth_add_update_share_repo, confirm_auth_group_key,
    function_name_as_condition, if_true]
  split_ifs <;> rfl

/-- Whenever `mark_confirm_and_may_move_session` returns, `activate()` was not
called, the state returned is `DEAD` or the state the session had, and no
confirmation bit was cleared. -/
theorem mark_confirm_keeps (Q : SessionPrimitives) (s : np1secSession) (m : np1secMessage)
    (r : HandlerResult) (h : mark_confirm_and_may_move_session Q s m = some r) :
    confirmation_bits_kept s r.session ∧ r.activated = false ∧
      (r.state = np1secSessionState.DEAD ∨ r.state = s.my_state) := by
  simp only [mark_confirm_and_may_move_session] at h
  split_ifs at h with hval
  · cases h1 : mark_confirmed s m.sender_id with
    | none => simp [h1] at h
    | some s1 =>
      simp only [h1] at h
      cases h2 : mark_confirmed s1 m.sender_id with
      | none => simp [h2] at h
      | some s2 =>
        simp only [h2] at h
        have hkept := confirmation_bits_kept_trans s s1 s2
          (mark_confirmed_kept s s1 m.sender_id h1) (mark_confirmed_kept s1 s2 m.sender_id h2)
        have hstate : s2.my_state = s.my_state := by
          rw [mark_confirmed_state s1 s2 m.sender_id h2, mark_confirmed_state s s1 m.sender_id h1]
        cases hev : everybody_confirmed s2 with
        | none => simp [hev] at h
        | some b =>
          cases b
          · simp only [hev, Option.some.injEq] at h
            subst h
            exact ⟨hkept, rfl, Or.inr hstate⟩
          · exact absurd hev (everybody_confirmed_loop_ne_true _)
  · simp only [Option.some.injEq] at h
    subst h
    exact ⟨confirmation_bits_kept_of_eq s s rfl, rfl, Or.inl rfl⟩

/-- Whenever `confirm_or_resession` returns, the state returned is `DEAD` or
the state the session had, and no confirmation bit was cleared. -/
theorem confirm_or_resession_keeps (Q : SessionPrimitives) (child : np1secSession)
    (t : SessionWithChildren) (m : np1secMessage) (r : ChildHandlerResult)
    (h : confirm_or_resession Q child t m = some r) :
    confirmation_bits_kept t.session r.session ∧
      (r.state = np1secSessionState.DEAD ∨ r.state = t.session.my_state) := by
  simp only [confirm_or_resession] at h
  split_ifs at h with hsid hval hchild
  · cases h1 : mark_confirmed t.session m.sender_id with
    | none => simp [h1] at h
    | some s1 =>
      simp only [h1] at h
      have hkept := mark_confirmed_kept t.session s1 m.sender_id h1
      have hstate := mark_confirmed_state t.session s1 m.sender_id h1
      cases hev : everybody_confirmed s1 with
      | none => simp [hev] at h
      | some b =>
        cases b
        · simp only [hev, Option.some.injEq] at h
          subst h
          exact ⟨hkept, Or.inr hstate⟩
        · exact absurd hev (everybody_confirmed_loop_ne_true _)
  · simp only [Option.some.injEq] at h
    subst h
    exact ⟨confirmation_bits_kept_of_eq _ _ rfl, Or.inl rfl⟩
  · simp only [Option.some.injEq] at h
    subst h
    exact ⟨confirmation_bits_kept_of_eq _ _ rfl, Or.inl rfl⟩
  · simp only [Option.some.injEq] at h
    subst h
    exact ⟨confirmation_bits_kept_of_eq _ _ rfl, Or.inl rfl⟩

theorem send_auth_share_and_participant_info_keeps (child : np1secSession)
    (t : SessionWithChildren) (m : np1secMessage) :
    (send_auth_share_and_participant_info child t m).session = t.session := by
  simp only [send_auth_share_and_participant_info]
  split_ifs <;> rfl

/-- No handler clears a confirmation bit. -/
theorem handlers_keep_confirmation_bits (P : Primitives) (Q : SessionPrimitives)
    (child : np1secSession) (t : SessionWithChildren) (m : np1secMessage) :
    (∀ s1, state_handler t.session m = Except.ok s1 → confirmation_bits_kept t.session s1) ∧
    (∀ r, auth_and_reshare P Q t.session m = some r →
      confirmation_bits_kept t.session r.session) ∧
    (∀ r, confirm_or_resession Q child t m = some r →
      confirmation_bits_kept t.session r.session) ∧
    confirmation_bits_kept t.session (send_auth_share_and_participant_info child t m).session ∧
    confirmation_bits_kept t.session
      (confirm_auth_add_update_share_repo P Q t.session m).session ∧
    (∀ r, mark_confirm_and_may_move_session Q t.session m = some r →
      confirmation_bits_kept t.session r.session) ∧
    (∀ r, send_farewell_and_reshare Q child t m = some r →
      confirmation_bits_kept t.session r.session) := by
  refine ⟨?_, ?_, ?_, ?_, ?_, ?_, ?_⟩
  · intro s1 h
    rw [state_handler_ok _ _ _ h]
    exact confirmation_bits_kept_of_eq _ _ rfl
  · intro r h
    exact confirmation_bits_kept_of_eq _ _ (auth_and_reshare_keeps P Q _ m r h).1
  · intro r h
    exact (confirm_or_resession_keeps Q child t m r h).1
  · rw [send_auth_share_and_participant_info_keeps]
    exact confirmation_bits_kept_of_eq _ _ rfl
  · exact confirmation_bits_kept_of_eq _ _ (confirm_auth_keeps P Q _ m)
  · intro r h
    exact (mark_confirm_keeps Q _ m r h).1
  · intro r h
    simp only [send_farewell_and_reshare, string_from_null] at h
    cases h

/-! ## DEAD sessions -/

/-- C18: for every message whose sid differs from the session id,
`confirm_or_resession` returns `DEAD` and leaves the confirmation bits as they
were; the new joiner session is stored in `my_children` under its own session
id when its id is set, and `my_children` is unchanged when it is not. -/
theorem confirm_or_resession_sid_mismatch (Q : SessionPrimitives)
    (new_child_session : np1secSession) (t : SessionWithChildren)
    (received_message : np1secMessage)
    (hsid : received_message.sid ≠ t.session.session_id) :
    ∃ r, confirm_or_resession Q new_child_session t received_message = some r ∧
      r.state = np1secSessionState.DEAD ∧
      r.session.confirmed_peers = t.session.confirmed_peers ∧
      (new_child_session.session_id_is_set = true →
        StdMap.find? r.my_children new_child_session.session_id =
            some { new_child_session with my_parent := some t.session.session_id } ∧
          ∀ k, k ≠ new_child_session.session_id →
            StdMap.find? r.my_children k = StdMap.find? t.my_children k) ∧
      (new_child_session.session_id_is_set = false → r.my_children = t.my_children) := by
  by_cases hchild : new_child_session.session_id_is_set = true
  · have hrun : confirm_or_resession Q new_child_session t received_message =
        some ⟨t.session,
          StdMap.assign t.my_children new_child_session.session_id
            { new_child_session with my_parent := some t.session.session_id },
          np1secSessionState.DEAD⟩ := by
      simp only [confirm_or_resession, hsid, if_false, hchild, if_true]
    refine ⟨_, hrun, rfl, rfl, ?_, ?_⟩
    · intro _
      exact ⟨StdMap.find?_assign_self _ _ _, fun k hk => StdMap.find?_assign_ne _ _ k _ hk⟩
    · intro h
      rw [h] at hchild
      cases hchild
  · have hrun : confirm_or_resession Q new_child_session t received_message =
        some ⟨t.session, t.my_children, np1secSessionState.DEAD⟩ := by
      simp only [confirm_or_resession, hsid, if_false, hchild, Bool.false_eq_true]
    refine ⟨_, hrun, rfl, rfl, ?_, ?_⟩
    · intro h
      exact absurd h hchild
    · intro _
      rfl

theorem confirm_or_resession_sid_mismatch_witness :
    ∃ r, confirm_or_resession toy_session rejoin_session ⟨joiner_session, []⟩
        confirmation_other_sid = some r ∧
      r.state = np1secSessionState.DEAD ∧
      r.session.confirmed_peers = joiner_session.confirmed_peers ∧
      (rejoin_session.session_id_is_set = true →
        StdMap.find? r.my_children rejoin_session.session_id =
            some { rejoin_session with my_parent := some joiner_session.session_id } ∧
          ∀ k, k ≠ rejoin_session.session_id →
            StdMap.find? r.my_children k =
              StdMap.find? ([] : StdMap HashBlock np1secSession) k) ∧
      (rejoin_session.session_id_is_set = false →
        r.my_children = ([] : StdMap HashBlock np1secSession)) :=
  confirm_or_resession_sid_mismatch toy_session rejoin_session ⟨joiner_session, []⟩
    confirmation_other_sid (by decide)

/-- C19, evaluated: alice has confirmed and the confirmation of bob validates.
The handler sets the bit of bob, so every bit is set; the loop of
`everybody_confirmed()` then runs to the end of `confirmed` without meeting
`participants.end()`, and the handler has no defined result: `activate()` is
not called and `IN_SESSION` is not returned.  When the bit of carol is still
cleared, the handler returns the current state. -/
theorem full_confirmation_is_not_promoted :
    incumbent_session.confirmed_peers = [true, false] ∧
    toy_session.validate_session_confirmation incumbent_session = true ∧
    (mark_confirmed incumbent_session confirmation_from_bob.sender_id).map
      (fun s => s.confirmed_peers) = some [true, true] ∧
    everybody_confirmed { incumbent_session with confirmed_peers := [true, true] } = none ∧
    mark_confirm_and_may_move_session toy_session incumbent_session confirmation_from_bob =
      none ∧
    (mark_confirm_and_may_move_session toy_session incumbent_of_three
      confirmation_from_bob).map (fun r => (r.session.confirmed_peers, r.activated, r.state)) =
      some ([true, true, false], false, np1secSessionState.REPLIED_TO_NEW_JOIN) := by
  refine ⟨?_, ?_, ?_, ?_, ?_, ?_⟩ <;> decide

/-- C20, evaluated: the session id is `"sid"` and bob's confirmation carries
the sid `"other"`; `mark_confirm_and_may_move_session` does not read the sid
and sets bob's confirmation bit.  In the session with carol the handler
returns with the bitmap changed. -/
theorem mark_confirm_counts_foreign_sid :
    incumbent_session.session_id = ⟨"sid"⟩ ∧
    confirmation_other_sid.sid = ⟨"other"⟩ ∧
    incumbent_session.confirmed_peers = [true, false] ∧
    incumbent_session.my_state = np1secSessionState.REPLIED_TO_NEW_JOIN ∧
    (mark_confirmed incumbent_session confirmation_other_sid.sender_id).map
      (fun s => s.confirmed_peers) = some [true, true] ∧
    incumbent_of_three.session_id = ⟨"sid"⟩ ∧
    incumbent_of_three.confirmed_peers = [true, false, false] ∧
    (mark_confirm_and_may_move_session toy_session incumbent_of_three
      confirmation_other_sid).map (fun r => (r.session.confirmed_peers, r.activated, r.state)) =
      some ([true, true, false], false, np1secSessionState.REPLIED_TO_NEW_JOIN) := by
  refine ⟨?_, ?_, ?_, ?_, ?_, ?_, ?_, ?_⟩ <;> decide

/-- The result of `mark_confirm_and_may_move_session` does not depend on the
sid of the message. -/
theorem mark_confirm_ignores_sid (Q : SessionPrimitives) (s : np1secSession)
    (m : np1secMessage) (sid : HashBlock) :
    mark_confirm_and_may_move_session Q s { m with sid := sid } =
      mark_confirm_and_may_move_session Q s m := rfl

/-! ## Leaving -/

theorem StdMap.find?_assign_isSome {K V : Type} [DecidableEq K] [StdLess K]
    (m : StdMap K V) (k j : K) (v : V) (h : (StdMap.find? m j).isSome = true) :
    (StdMap.find? (StdMap.assign m k v) j).isSome = true := by
  by_cases hj : j = k
  · subst hj
    rw [StdMap.find?_assign_self]
    rfl
  · rw [StdMap.find?_assign_ne m k j v hj]
    exact h

theorem StdMap.find?_index_isSome {K V : Type} [DecidableEq K] [StdLess K] [Inhabited V]
    (m : StdMap K V) (k j : K) (h : (StdMap.find? m j).isSome = true) :
    (StdMap.find? (StdMap.index m k).2 j).isSome = true := by
  unfold StdMap.index
  cases hk : StdMap.find? m k with
  | some v => exact h
  | none => exact StdMap.find?_assign_isSome m k j default h

theorem compute_session_id_loop_isSome (P : Primitives) (peers : List String)
    (m : ParticipantMap) (acc : String) (j : String)
    (h : (StdMap.find? m j).isSome = true) :
    (StdMap.find? (compute_session_id_loop P peers m acc).1 j).isSome = true := by
  induction peers generalizing m acc with
  | nil => exact h
  | cons it rest ih =>
    simp only [compute_session_id_loop]
    exact ih _ _ (StdMap.find?_index_isSome m it j h)

theorem compute_session_id_isSome (P : Primitives) (s : np1secSession)
    (r : np1secSession × Bool) (h : compute_session_id P s = some r) (j : String)
    (hj : (StdMap.find? s.participants j).isSome = true) :
    (StdMap.find? r.1.participants j).isSome = true := by
  simp only [compute_session_id] at h
  split_ifs at h <;> simp only [Option.some.injEq] at h <;> subst h
  · exact hj
  · exact compute_session_id_loop_isSome P _ _ _ j hj

theorem send_share_message_participants (Q : SessionPrimitives) (s : np1secSession)
    (r : np1secSession × List SentMessage × Bool) (h : send_share_message Q s = some r) :
    r.1.participants = s.participants := by
  simp only [send_share_message] at h
  split_ifs at h
  cases hg : Q.group_enc s with
  | none =>
    simp only [hg, Option.some.injEq] at h
    subst h
    rfl
  | some share =>
    simp only [hg, Option.some.injEq] at h
    subst h
    rfl

/-- Every participant of the map that the leave constructor is given, the
leaver included, is in the participant map of the session it builds. -/
theorem leave_constructor_keeps_all (P : Primitives) (Q : SessionPrimitives)
    (s0 : np1secSession) (room_name leaver_id : String)
    (current_authed_participants : ParticipantMap) (participant_id : String)
    (ephemeral_key : HashBlock) (r : np1secSession × List SentMessage)
    (h : leave_constructor P Q s0 room_name leaver_id current_authed_participants
      participant_id ephemeral_key = some r)
    (j : String) (hj : (StdMap.find? current_authed_participants j).isSome = true) :
    (StdMap.find? r.1.participants j).isSome = true := by
  simp only [leave_constructor] at h
  split_ifs at h with hk
  cases hc : compute_session_id P
      { s0 with
        room_name := room_name
        my_state := np1secSessionState.DEAD
        participants :=
          StdMap.assign (StdMap.index current_authed_participants participant_id).2
            participant_id
            (set_ephmeral_key P (StdMap.index current_authed_participants participant_id).1
              ephemeral_key).1 } with
  | none => simp only [hc] at h; cases h
  | some c =>
    simp only [hc] at h
    have hcj := compute_session_id_isSome P _ c hc j
      (StdMap.find?_assign_isSome _ _ _ _
        (StdMap.find?_index_isSome current_authed_participants participant_id j hj))
    cases hs : send_share_message Q c.1 with
    | none => simp only [hs] at h; cases h
    | some q =>
      simp only [hs] at h
      have hq := send_share_message_participants Q c.1 q hs
      split_ifs at h <;> simp only [Option.some.injEq] at h <;> subst h
      · show (StdMap.find? q.1.participants j).isSome = true
        rw [hq]; exact hcj
      · rw [hq]; exact hcj

/-- C21, evaluated: alice, bob and carol are the authenticated participants
and bob leaves.  The constructor copies the map into the session and then
drops bob from its by-value parameter, so the session it builds, in state
`RE_SHARED`, holds bob as before: the keys of its participant map are alice,
bob and carol. -/
theorem leave_constructor_keeps_the_leaver :
    StdMap.find? three_participants "bob" = some bob ∧
    StdMap.keys (StdMap.erase three_participants "bob") = ["alice", "carol"] ∧
    (leave_constructor toy toy_session seeded_session "room" "bob" three_participants
      "alice" ⟨"EA"⟩).map
        (fun r => (r.1.my_state, StdMap.keys r.1.participants,
          StdMap.find? r.1.participants "bob")) =
      some (np1secSessionState.RE_SHARED, ["alice", "bob", "carol"], some bob) := by
  refine ⟨?_, ?_, ?_⟩ <;> decide

/-! ## Joining a room -/

/-- What `join` leaves whenever it returns: `my_state` is the one the session
had; on true the one call of `send_bare` carries the text `"testing 123"` and
the ephemeral public key of the new key material is recorded in `myself`; it
returns false exactly when `Cryptic::init` fails, and then nothing is sent
and the session is as before. -/
theorem join_outcome (P : Primitives) (garbage : Nat) (us_user_id : String)
    (s : np1secSession) (k : LongTermIDKey) (r : np1secSession × List BareMessage × Bool)
    (h : join P garbage us_user_id s k = some r) :
    r.1.my_state = s.my_state ∧
    (r.2.2 = true →
      r.2.1 = [⟨s.room_name, us_user_id, "testing 123"⟩] ∧
      ∃ c, P.cryptic_init s.cryptic = some c ∧
        r.1.myself.ephemeral_key = c.ephemeral_pub_key) ∧
    (r.2.2 = false ↔ P.cryptic_init s.cryptic = none) ∧
    (r.2.2 = false → r.2.1 = [] ∧ r.1 = s) := by
  simp only [join] at h
  cases hi : P.cryptic_init s.cryptic with
  | none =>
    simp only [hi, Option.some.injEq] at h
    subst h
    simp
  | some c =>
    simp only [hi] at h
    cases hp : set_first_peer s.peers s.myself.id with
    | none =>
      simp only [hp] at h
      cases h
    | some peers =>
      simp only [hp] at h
      split_ifs at h with hone
      · split at h
        · cases h
        · rename_i q hq
          split_ifs at h with hflag
          simp only [Option.some.injEq] at h
          subst h
          have hk := compute_session_id_keeps P _ q hq
          have hm : q.1.myself.ephemeral_key = c.ephemeral_pub_key := by
            simp only [compute_session_id] at hq
            split_ifs at hq <;> simp only [Option.some.injEq] at hq <;> subst hq <;> rfl
          refine ⟨hk.2, fun _ => ⟨rfl, c, rfl, hm⟩, ?_, ?_⟩ <;> simp
      · simp only [Option.some.injEq] at h
        subst h
        refine ⟨rfl, fun _ => ⟨rfl, c, rfl, rfl⟩, ?_, ?_⟩ <;> simp

/-- On a session whose `peers` is empty, `join` has no result when
`Cryptic::init` succeeds, and returns false with nothing sent when it fails. -/
theorem join_empty_peers (P : Primitives) (garbage : Nat) (us_user_id : String)
    (s : np1secSession) (k : LongTermIDKey) (hpeers : s.peers = []) :
    join P garbage us_user_id s k =
      match P.cryptic_init s.cryptic with
      | some _ => none
      | none => some (s, [], false) := by
  simp only [join, hpeers, set_first_peer]
  cases P.cryptic_init s.cryptic <;> rfl

/-- C22: `join` does not succeed on a new session.  The vector `peers` of a
new session is empty, and `join` assigns `peers[0] = myself.id`: when
`Cryptic::init` has succeeded the call has no defined result, so the session
does not reach `JOIN_REQUESTED`, nothing goes to `send_bare` and true is not
returned; when `Cryptic::init` fails, `join` returns false, sends nothing and
leaves the session as it was.  Hence whenever `join` returns, it returns
false. -/
theorem join_of_new_session (P : Primitives) (s0 : np1secSession) (garbage : Nat)
    (us_user_id room_name : String)
    (participants_in_the_room : List UnauthenticatedParticipant) (k : LongTermIDKey)
    (hnew : s0.peers = []) :
    (∀ c, P.cryptic_init s0.cryptic = some c →
      join P garbage us_user_id
        (joiner_constructor s0 us_user_id room_name participants_in_the_room) k = none) ∧
    (P.cryptic_init s0.cryptic = none →
      join P garbage us_user_id
          (joiner_constructor s0 us_user_id room_name participants_in_the_room) k =
        some (joiner_constructor s0 us_user_id room_name participants_in_the_room, [],
          false)) ∧
    (∀ r, join P garbage us_user_id
        (joiner_constructor s0 us_user_id room_name participants_in_the_room) k = some r →
      r.2.2 = false ∧ r.2.1 = [] ∧ r.1.my_state = s0.my_state) := by
  have hrun := join_empty_peers P garbage us_user_id
    (joiner_constructor s0 us_user_id room_name participants_in_the_room) k hnew
  have hc : (joiner_constructor s0 us_user_id room_name participants_in_the_room).cryptic =
      s0.cryptic := rfl
  rw [hc] at hrun
  refine ⟨?_, ?_, ?_⟩
  · intro c hinit
    rw [hrun, hinit]
  · intro hinit
    rw [hrun, hinit]
  · intro r hr
    rw [hrun] at hr
    cases hinit : P.cryptic_init s0.cryptic with
    | none =>
      simp only [hinit, Option.some.injEq] at hr
      subst hr
      exact ⟨rfl, rfl, rfl⟩
    | some c =>
      simp only [hinit] at hr
      cases hr

theorem join_of_new_session_witness :
    blank_session.peers = [] ∧
    (joiner_constructor blank_session "alice" "room" room_list).my_state =
      np1secSessionState.NONE ∧
    join toy 0 "alice" (joiner_constructor blank_session "alice" "room" room_list)
      ⟨(none, none), false⟩ = none ∧
    join toy_no_init 0 "alice" (joiner_constructor blank_session "alice" "room" room_list)
        ⟨(none, none), false⟩ =
      some (joiner_constructor blank_session "alice" "room" room_list, [], false) :=
  ⟨by decide, by decide,
    (join_of_new_session toy blank_session 0 "alice" "room" room_list ⟨(none, none), false⟩
      (by decide)).1 _ rfl,
    (join_of_new_session toy_no_init blank_session 0 "alice" "room" room_list
      ⟨(none, none), false⟩ (by decide)).2.1 rfl⟩

theorem StdMap.find?_insert {K V : Type} [DecidableEq K] [StdLess K]
    (m : StdMap K V) (k : K) (v : V) :
    StdMap.find? (StdMap.insert m k v) k = some ((StdMap.find? m k).getD v) := by
  unfold StdMap.insert
  cases hk : StdMap.find? m k with
  | some old => simp [hk]
  | none => simp [StdMap.find?_assign_self]

/-- After `join_room` returns true, the session of the room is the one the
room had before when it had one, and the new session when it had none. -/
theorem join_room_retrieve (P : Primitives) (s0 : np1secSession) (garbage : Nat)
    (us : np1secUserState) (room_name : String)
    (participants_in_the_room : List UnauthenticatedParticipant)
    (r : np1secUserState × Bool)
    (h : join_room P s0 garbage us room_name participants_in_the_room = some r)
    (htrue : r.2 = true) :
    ∃ j, join P garbage us.name
        (joiner_constructor s0 us.name room_name participants_in_the_room)
        us.long_term_key_pair = some j ∧
      retrieve_session r.1 room_name = some ((retrieve_session us room_name).getD j.1) := by
  simp only [join_room] at h
  cases hj : join P garbage us.name
      (joiner_constructor s0 us.name room_name participants_in_the_room)
      us.long_term_key_pair with
  | none => simp only [hj] at h; cases h
  | some j =>
    simp only [hj] at h
    refine ⟨j, rfl, ?_⟩
    split_ifs at h <;> simp only [Option.some.injEq] at h <;> subst h
    · exact StdMap.find?_insert us.session_in_a_room room_name j.1
    · cases htrue

/-- C23: `join_room` creates no session.  The session that `join_room`
constructs is new, so its `join()` has no result when `Cryptic::init` has
succeeded, and `join_room` has none either; when `Cryptic::init` fails,
`join_room` returns false and leaves the user state as it was.  Whenever
`join_room` returns, it returns false, and the session of every room, a
`DEAD` one included, is the one the room had before. -/
theorem join_room_creates_no_session (P : Primitives) (s0 : np1secSession) (garbage : Nat)
    (us : np1secUserState) (room_name : String)
    (participants_in_the_room : List UnauthenticatedParticipant)
    (hnew : s0.peers = []) :
    (∀ c, P.cryptic_init s0.cryptic = some c →
      join_room P s0 garbage us room_name participants_in_the_room = none) ∧
    (P.cryptic_init s0.cryptic = none →
      join_room P s0 garbage us room_name participants_in_the_room = some (us, false)) ∧
    (∀ r, join_room P s0 garbage us room_name participants_in_the_room = some r →
      r.2 = false ∧ ∀ room, retrieve_session r.1 room = retrieve_session us room) := by
  have hrun := join_empty_peers P garbage us.name
    (joiner_constructor s0 us.name room_name participants_in_the_room)
    us.long_term_key_pair hnew
  have hc : (joiner_constructor s0 us.name room_name participants_in_the_room).cryptic =
      s0.cryptic := rfl
  rw [hc] at hrun
  have hsome : ∀ c, P.cryptic_init s0.cryptic = some c →
      join_room P s0 garbage us room_name participants_in_the_room = none := by
    intro c hinit
    simp only [join_room, hrun, hinit]
  have hnone : P.cryptic_init s0.cryptic = none →
      join_room P s0 garbage us room_name participants_in_the_room = some (us, false) := by
    intro hinit
    simp only [join_room, hrun, hinit, List.append_nil, Bool.false_eq_true, if_false]
  refine ⟨hsome, hnone, ?_⟩
  intro r hr
  cases hinit : P.cryptic_init s0.cryptic with
  | none =>
    rw [hnone hinit] at hr
    simp only [Option.some.injEq] at hr
    subst hr
    exact ⟨rfl, fun _ => rfl⟩
  | some c =>
    rw [hsome c hinit] at hr
    cases hr

theorem join_room_creates_no_session_witness :
    blank_session.peers = [] ∧
    retrieve_session dead_user_state "room" = some dead_session ∧
    join_room toy blank_session 0 dead_user_state "room" room_list = none ∧
    join_room toy_no_init blank_session 0 dead_user_state "room" room_list =
      some (dead_user_state, false) ∧
    join_room toy blank_session 0 (np1secUserState.new "alice" none) "lobby" room_list =
      none :=
  ⟨by decide, by decide,
    (join_room_creates_no_session toy blank_session 0 dead_user_state "room" room_list
      (by decide)).1 _ rfl,
    (join_room_creates_no_session toy_no_init blank_session 0 dead_user_state "room" room_list
      (by decide)).2.1 rfl,
    (join_room_creates_no_session toy blank_session 0 (np1secUserState.new "alice" none)
      "lobby" room_list (by decide)).1 _ rfl⟩

/-! ## The long-term key -/

/-- The constructor of the user state does not read `key_pair`. -/
theorem user_state_new_key_pair (name : String) (key_pair : Option String) :
    np1secUserState.new name key_pair = np1secUserState.new name none := rfl

/-- The member `init` on an initiated key returns true and replaces nothing. -/
theorem init_keeps_initiated_key (P : Primitives) (us : np1secUserState)
    (h : us.long_term_key_pair.initiated = true) :
    np1secUserState.init P us = some (us, true) := by
  simp only [np1secUserState.init, h, if_true]

/-- The member `init` on a new user state generates a key, whatever
`key_pair` the constructor was given. -/
theorem init_after_new (P : Primitives) (name : String) (key_pair : Option String) :
    np1secUserState.init P (np1secUserState.new name key_pair) =
      P.generate_key_pair.map (fun g =>
        ({ np1secUserState.new name key_pair with
            long_term_key_pair := ⟨(g.2, P.public_key_of g.2), true⟩ }, true)) := by
  simp only [np1secUserState.init, np1secUserState.new, LongTermIDKey.generate,
    Bool.false_eq_true, if_false]
  cases P.generate_key_pair <;> rfl

/-- C24, evaluated: the user state of alice is constructed with the key pair
`"KEY"`.  The constructor does not read it: the long-term key is not
initiated, the state equals the one constructed without a key pair, and
`init()` returns true after generating another key. -/
theorem user_state_ignores_key_pair :
    (np1secUserState.new "alice" (some "KEY")).long_term_key_pair =
      ⟨(none, none), false⟩ ∧
    np1secUserState.new "alice" (some "KEY") = np1secUserState.new "alice" none ∧
    (np1secUserState.init toy (np1secUserState.new "alice" (some "KEY"))).map
        (fun r => (r.2, r.1.long_term_key_pair)) =
      some (true, ⟨(some "GENERATED", some "GENERATED"), true⟩) := by
  refine ⟨?_, ?_, ?_⟩ <;> decide

/-! ## Messages for a room without a session -/

/-- For a room without a session `receive_handler` returns no `RoomAction`,
whatever the message. -/
theorem receive_handler_no_session (P : Primitives) (us : np1secUserState)
    (room_name np1sec_message : String) (message_id : Nat)
    (h : retrieve_session us room_name = none) :
    receive_handler P us room_name np1sec_message message_id = none := by
  simp only [receive_handler, h]

/-- C25, evaluated: the user state of alice holds no session.  For a JOIN, a
LEAVE, a SEND and any other message to the room "room", `receive_handler`
reaches `cur_session->receive` with the null pointer and returns no
`RoomAction`. -/
theorem receive_handler_without_session_fails :
    retrieve_session (np1secUserState.new "alice" none) "room" = none ∧
    receive_handler toy (np1secUserState.new "alice" none) "room" ":o?JOIN:o?bob" 0 = none ∧
    receive_handler toy (np1secUserState.new "alice" none) "room" ":o?LEAVE:o?bob" 0 = none ∧
    receive_handler toy (np1secUserState.new "alice" none) "room"
      ":o?SEND:o?1:o?bob:o?hello" 0 = none ∧
    receive_handler toy (np1secUserState.new "alice" none) "room" "bob|sid|hello" 0 = none := by
  refine ⟨?_, ?_, ?_, ?_, ?_⟩ <;> decide

/-! ## The messages of a joiner and of an incumbent -/

/-- No message that `joiner_send_auth_and_share` sends carries an auth
argument, and with a set session id and a failing `group_enc()` it returns
false and sends nothing. -/
theorem joiner_send_auth_and_share_auth (P : Primitives) (Q : SessionPrimitives)
    (s : np1secSession) :
    (∀ r, joiner_send_auth_and_share P Q s = some r → ∀ m ∈ r.2.1, m.auth = none) ∧
    (s.session_id_is_set = true → Q.group_enc s = none →
      joiner_send_auth_and_share P Q s = some (s, [], false)) := by
  constructor
  · intro r h m hm
    simp only [joiner_send_auth_and_share] at h
    split_ifs at h
    cases hg : Q.group_enc s with
    | none =>
      simp only [hg, Option.some.injEq] at h
      subst h
      cases hm
    | some share =>
      simp only [hg] at h
      split at h
      · cases h
      · simp only [Option.some.injEq] at h
        subst h
        simp only [List.mem_singleton] at hm
        subst hm
        rfl
  · intro hset hg
    simp only [joiner_send_auth_and_share, hset, if_true, hg]

/-- C26, evaluated: alice has authenticated to nobody, her session id is set
and `group_enc()` yields the share `"ZA"`.  The loop builds the batch of
index and token for the peers 0 and 1, but in the call of
`create_participant_info` the argument `auth_batch,` stands behind `//`: the
`JOINER_AUTH` message is built from the sid, `""` and the key share, without
any token.  With a failing `group_enc()` the function returns false and sends
nothing. -/
theorem joiner_auth_carries_no_token :
    (joiner_auth_loop toy_dh toy_session joiner_session.cryptic joiner_session.peers 0
      joiner_session.participants "").map Prod.snd = some "0EALAEALAalice1EALAEBLBbob" ∧
    (joiner_send_auth_and_share toy_dh toy_session joiner_session).map
        (fun r => (r.2.2, r.2.1)) =
      some (true, [⟨np1secMessageType.JOINER_AUTH, ⟨"sid"⟩, some "", none, some ⟨"ZA"⟩,
        none⟩]) ∧
    (joiner_send_auth_and_share toy_dh toy_session_no_share joiner_session).map
        (fun r => (r.2.2, r.2.1)) = some (false, []) := by
  refine ⟨?_, ?_, ?_⟩ <;> decide

/-! ## Children of a session -/

/-- The result of `setup_session_view` does not depend on the message: it is
the one of `compute_session_id` on the session as it was. -/
theorem setup_session_view_ignores_message (P : Primitives) (s : np1secSession)
    (session_view_message : np1secMessage) :
    setup_session_view P s session_view_message = compute_session_id P s := by
  simp only [setup_session_view, List.take_zero, List.foldl_nil, compute_session_id]
  split_ifs <;> rfl

/-- C29, evaluated: the session of alice knows alice and bob, and the session
view lists alice, bob and carol.  The loop of `setup_session_view` runs while
`it != plist.begin()`, from `plist.begin()`: carol is not recorded, the
participant map is as before, and the session id is computed over alice and
bob. -/
theorem setup_session_view_records_nobody :
    session_view_with_carol.participants_in_the_room.map (fun p => p.participant_id) =
      ["alice", "bob", "carol"] ∧
    (setup_session_view toy fresh_session session_view_with_carol).map
        (fun r => (r.2, StdMap.find? r.1.participants "carol",
          decide (r.1.participants = fresh_session.participants), r.1.session_id)) =
      some (true, none, true, ⟨"aliceEAbobEB"⟩) := by
  refine ⟨?_, ?_⟩ <;> decide

/-! ## The constructors of an incumbent -/

theorem send_view_auth_and_share_outcome (P : Primitives) (Q : SessionPrimitives)
    (s : np1secSession) (joiner_id : String)
    (r : np1secSession × List SentMessage × Bool)
    (h : send_view_auth_and_share P Q s joiner_id = some r) :
    r.1.my_state = s.my_state ∧
    ((r.2.2 = true ∧ ∃ m, r.2.1 = [m] ∧
        m.message_type = np1secMessageType.PARTICIPANT_INFO ∧
        m.unauthenticated_participants.isSome = true ∧ m.auth.isSome = true ∧
        m.key_share.isSome = true) ∨
      (r.2.2 = false ∧ r.2.1 = [])) := by
  simp only [send_view_auth_and_share] at h
  split_ifs at h
  cases hg : Q.group_enc s with
  | none =>
    simp only [hg, Option.some.injEq] at h
    subst h
    exact ⟨rfl, Or.inr ⟨rfl, rfl⟩⟩
  | some share =>
    simp only [hg] at h
    split at h
    · cases h
    · simp only [Option.some.injEq] at h
      subst h
      exact ⟨rfl, Or.inl ⟨rfl, _, rfl, rfl, rfl, rfl, rfl⟩⟩

theorem send_share_message_outcome (Q : SessionPrimitives) (s : np1secSession)
    (r : np1secSession × List SentMessage × Bool) (h : send_share_message Q s = some r) :
    r.1.my_state = s.my_state ∧
    ((r.2.2 = true ∧ ∃ m, r.2.1 = [m] ∧ m.message_type = np1secMessageType.RE_SHARE ∧
        m.key_share.isSome = true) ∨
      (r.2.2 = false ∧ r.2.1 = [])) := by
  simp only [send_share_message] at h
  split_ifs at h
  cases hg : Q.group_enc s with
  | none =>
    simp only [hg, Option.some.injEq] at h
    subst h
    exact ⟨rfl, Or.inr ⟨rfl, rfl⟩⟩
  | some share =>
    simp only [hg, Option.some.injEq] at h
    subst h
    exact ⟨rfl, Or.inl ⟨rfl, _, rfl, rfl, rfl⟩⟩

/-- On a session object from which they complete, the constructors end as
follows.  When the constructor for a join request completes, the session is in
`REPLIED_TO_NEW_JOIN` and one `PARTICIPANT_INFO` message with the view, the
auth token and the key share was sent, or it is in `DEAD` and nothing was
sent; when the constructor for a leave completes, the session is in
`RE_SHARED` and one `RE_SHARE` message with the key share was sent, or it is
in `DEAD` and nothing was sent. -/
theorem constructor_outcome (P : Primitives) (Q : SessionPrimitives)
    (s0 s0l : np1secSession) (room_name : String) (join_message : np1secMessage)
    (leaver_id : String) (current_authed_participants authed_l : ParticipantMap)
    (participant_id : String) (ephemeral_key : HashBlock)
    (rj rl : np1secSession × List SentMessage)
    (hj : join_request_constructor P Q s0 room_name join_message
      current_authed_participants = some rj)
    (hl : leave_constructor P Q s0l room_name leaver_id authed_l participant_id
      ephemeral_key = some rl) :
    ((rj.1.my_state = np1secSessionState.REPLIED_TO_NEW_JOIN ∧
        ∃ m, rj.2 = [m] ∧ m.message_type = np1secMessageType.PARTICIPANT_INFO ∧
          m.unauthenticated_participants.isSome = true ∧ m.auth.isSome = true ∧
          m.key_share.isSome = true) ∨
      (rj.1.my_state = np1secSessionState.DEAD ∧ rj.2 = [])) ∧
    ((rl.1.my_state = np1secSessionState.RE_SHARED ∧
        ∃ m, rl.2 = [m] ∧ m.message_type = np1secMessageType.RE_SHARE ∧
          m.key_share.isSome = true) ∨
      (rl.1.my_state = np1secSessionState.DEAD ∧ rl.2 = [])) := by
  constructor
  · simp only [join_request_constructor] at hj
    split at hj
    · cases hj
    · split at hj
      · cases hj
      · rename_i c hc
        split at hj
        · cases hj
        · rename_i q hq
          have hcs := (compute_session_id_keeps P _ c hc).2
          have hqs := send_view_auth_and_share_outcome P Q c.1 _ q hq
          split_ifs at hj with hflag <;> simp only [Option.some.injEq] at hj <;> subst hj
          · rcases hqs.2 with hs | hs
            · exact Or.inl ⟨rfl, hs.2⟩
            · rw [hs.1] at hflag
              cases hflag
          · rcases hqs.2 with hs | hs
            · exact absurd hs.1 hflag
            · exact Or.inr ⟨hqs.1.trans hcs, hs.2⟩
  · simp only [leave_constructor] at hl
    split_ifs at hl with hk
    split at hl
    · cases hl
    · rename_i c hc
      split at hl
      · cases hl
      · rename_i q hq
        have hcs := (compute_session_id_keeps P _ c hc).2
        have hqs := send_share_message_outcome Q c.1 q hq
        split_ifs at hl with hflag <;> simp only [Option.some.injEq] at hl <;> subst hl
        · rcases hqs.2 with hs | hs
          · exact Or.inl ⟨rfl, hs.2⟩
          · rw [hs.1] at hflag
            cases hflag
        · rcases hqs.2 with hs | hs
          · exact absurd hs.1 hflag
          · exact Or.inr ⟨hqs.1.trans hcs, hs.2⟩

/-! ## Farewell -/

/-- The statements of `send_farewell_and_reshare` behind its second one hold
no assignment to `my_state`: the state they return and the state of the
session are the ones the session had; a child whose session id is set is
stored in `my_children` under that id. -/
theorem send_farewell_and_reshare_tail_state (Q : SessionPrimitives)
    (new_child_session : np1secSession) (t : SessionWithChildren) :
    (send_farewell_and_reshare_tail Q new_child_session t).state = t.session.my_state ∧
    (send_farewell_and_reshare_tail Q new_child_session t).session.my_state =
      t.session.my_state ∧
    (new_child_session.session_id_is_set = true →
      StdMap.find? (send_farewell_and_reshare_tail Q new_child_session t).my_children
          new_child_session.session_id =
        some { new_child_session with my_parent := some t.session.session_id }) := by
  simp only [send_farewell_and_reshare_tail]
  cases Q.group_enc t.session <;> split_ifs with h
  · exact ⟨rfl, rfl, fun _ => StdMap.find?_assign_self _ _ _⟩
  · exact ⟨rfl, rfl, fun h1 => absurd h1 h⟩
  · exact ⟨rfl, rfl, fun _ => StdMap.find?_assign_self _ _ _⟩
  · exact ⟨rfl, rfl, fun h1 => absurd h1 h⟩

/-- C31: `send_farewell_and_reshare` returns nothing, whatever the session,
the child and the message: its second statement is
`std::string meta_load = NULL;`.  The session does not become `FAREWELLED`
and no child is attached.  The statements behind the second one would not
make the session `FAREWELLED` either: they return `my_state` and leave it as
it was. -/
theorem send_farewell_and_reshare_returns_nothing (Q : SessionPrimitives)
    (new_child_session : np1secSession) (t : SessionWithChildren)
    (received_message : np1secMessage) :
    send_farewell_and_reshare Q new_child_session t received_message = none ∧
    (send_farewell_and_reshare_tail Q new_child_session t).state = t.session.my_state ∧
    (send_farewell_and_reshare_tail Q new_child_session t).session.my_state =
      t.session.my_state := by
  refine ⟨?_, (send_farewell_and_reshare_tail_state Q new_child_session t).1,
    (send_farewell_and_reshare_tail_state Q new_child_session t).2.1⟩
  simp only [send_farewell_and_reshare, string_from_null]

/-! ## The order of participants -/

theorem string_less_irrefl (a : String) : string_less a a = false := by
  cases h : string_less a a with
  | false => rfl
  | true => exact absurd ((string_less_iff a a).mp h) (lt_irrefl a)

/-- The function `operator<` holds exactly when the nickname of the left
participant is smaller or its long-term public key bytes are smaller. -/
theorem operator_lt_iff (P : Primitives) (a b : Participant) :
    operator_lt P a b = true ↔
      a.nickname < b.nickname ∨
        P.public_key_to_stringbuff a.long_term_pub_key <
          P.public_key_to_stringbuff b.long_term_pub_key := by
  simp only [operator_lt, sort_by_long_term_pub_key]
  by_cases hn : string_less a.nickname b.nickname = true
  · simp only [hn, if_true, true_iff]
    exact Or.inl ((string_less_iff _ _).mp hn)
  · simp only [hn, Bool.false_eq_true, if_false]
    rw [string_less_iff]
    constructor
    · exact fun h => Or.inr h
    · rintro (h | h)
      · exact absurd ((string_less_iff _ _).mpr h) hn
      · exact h

/-- Whenever the order of nickname and then key holds, `operator<` holds, and
between participants of one nickname the two agree. -/
theorem operator_lt_of_nickname_then_key (P : Primitives) (a b : Participant) :
    (nickname_then_key_less P a b = true → operator_lt P a b = true) ∧
    (a.nickname = b.nickname → operator_lt P a b = nickname_then_key_less P a b) := by
  constructor
  · intro h
    simp only [nickname_then_key_less, Bool.or_eq_true, Bool.and_eq_true,
      decide_eq_true_eq] at h
    simp only [operator_lt, sort_by_long_term_pub_key]
    rcases h with h | ⟨_, h⟩
    · simp only [h, if_true]
    · split_ifs
      · rfl
      · exact h
  · intro h
    simp only [operator_lt, sort_by_long_term_pub_key, nickname_then_key_less, h,
      string_less_irrefl, Bool.false_eq_true, if_false, decide_True, Bool.true_and,
      Bool.false_or]

/-- C32, evaluated: bob has the long-term key `"K1"` and alice the key `"K2"`.
The nickname of alice is the smaller one, so alice is below bob; the nickname
of bob is not smaller, and `operator<` then compares the keys without asking
whether the nicknames are equal, so bob is below alice as well.  In the order
by nickname and then key bob is not below alice. -/
theorem operator_lt_both_ways :
    operator_lt toy alice_k2 bob_k1 = true ∧
    operator_lt toy bob_k1 alice_k2 = true ∧
    nickname_then_key_less toy alice_k2 bob_k1 = true ∧
    nickname_then_key_less toy bob_k1 alice_k2 = false := by
  refine ⟨?_, ?_, ?_, ?_⟩ <;> decide

/-! ## A join that fails -/

/-- C33: when `join()` of the new session returns false, `join_room` returns
false and the user state is as before: the map from room to session has no
entry added or replaced, and nothing was sent. -/
theorem join_room_atomic_on_failure (P : Primitives) (s0 : np1secSession) (garbage : Nat)
    (us : np1secUserState) (room_name : String)
    (participants_in_the_room : List UnauthenticatedParticipant)
    (hjoin : (join P garbage us.name
        (joiner_constructor s0 us.name room_name participants_in_the_room)
        us.long_term_key_pair).map (fun j => j.2.2) = some false) :
    join_room P s0 garbage us room_name participants_in_the_room = some (us, false) ∧
    ∀ r, join_room P s0 garbage us room_name participants_in_the_room = some r →
      r.2 = false ∧ r.1.session_in_a_room = us.session_in_a_room ∧
        ∀ room, retrieve_session r.1 room = retrieve_session us room := by
  have hrun : join_room P s0 garbage us room_name participants_in_the_room =
      some (us, false) := by
    cases hj : join P garbage us.name
        (joiner_constructor s0 us.name room_name participants_in_the_room)
        us.long_term_key_pair with
    | none =>
      rw [hj] at hjoin
      cases hjoin
    | some j =>
      rw [hj] at hjoin
      simp only [Option.map_some', Option.some.injEq] at hjoin
      have hout := (join_outcome P garbage us.name _ us.long_term_key_pair j hj).2.2.2 hjoin
      simp only [join_room, hj, hjoin, hout.1, List.append_nil, Bool.false_eq_true, if_false]
  refine ⟨hrun, ?_⟩
  intro r hr
  rw [hrun] at hr
  simp only [Option.some.injEq] at hr
  subst hr
  exact ⟨rfl, rfl, fun _ => rfl⟩

theorem join_room_atomic_on_failure_witness :
    (join toy_no_init 0 dead_user_state.name
        (joiner_constructor blank_session dead_user_state.name "room" room_list)
        dead_user_state.long_term_key_pair).map (fun j => j.2.2) = some false ∧
    (join_room toy_no_init blank_session 0 dead_user_state "room" room_list =
        some (dead_user_state, false) ∧
      ∀ r, join_room toy_no_init blank_session 0 dead_user_state "room" room_list = some r →
        r.2 = false ∧ r.1.session_in_a_room = dead_user_state.session_in_a_room ∧
          ∀ room, retrieve_session r.1 room = retrieve_session dead_user_state room) :=
  ⟨by decide,
    join_room_atomic_on_failure toy_no_init blank_session 0 dead_user_state "room" room_list
      (by decide)⟩

/-! ## Constructors on a new session object -/

/-- The room list of a joiner session is read by `compute_session_id` in no
way. -/
theorem compute_session_id_room_list (P : Primitives) (s : np1secSession)
    (l : List UnauthenticatedParticipant) :
    (compute_session_id P { s with participants_in_the_room := l }).map
        (fun r => (r.2, r.1.session_id_is_set, r.1.session_id)) =
      (compute_session_id P s).map (fun r => (r.2, r.1.session_id_is_set, r.1.session_id)) := by
  simp only [compute_session_id]
  split_ifs <;> rfl

end np1sec
